import Mathlib

/-!
Verification development for the AgentWeb rendering pipeline
(lite renderer, SPA detector, semantic chunker, result cache,
render orchestrator).

The JavaScript source is shallowly embedded: each JS function is
translated into an executable Lean function over `List Char` / `String`,
with machine floats replaced by exact rational comparisons (cross
multiplication) and the platform primitives (WHATWG URL resolution,
ECMAScript RegExp compilation) modelled by small executable functions
whose doc comments state the modelling assumptions.  Effectful code
(network fetch, headless browser, SQLite, the wall clock) is embedded by
explicit environment records and state passing.
-/

set_option maxRecDepth 20000

namespace AgentWeb

/-! ### Character and list-of-character helpers -/

/-- The backtick character (code 96), written via `Char.ofNat`. -/
def btick : Char := Char.ofNat 96

/-- The double-quote character (code 34). -/
def dq : Char := Char.ofNat 34

/-- The single-quote character (code 39). -/
def sq : Char := Char.ofNat 39

/-- ASCII lowercasing of one character, the model of JS `toLowerCase`
and of the `/i` regex flag (the sources only compare ASCII letters). -/
def lc (c : Char) : Char := c.toLower

/-- ASCII lowercasing of a character list. -/
def lowerL (s : List Char) : List Char := s.map lc

/-- Model of the JS regex class `\s` (and of `String.prototype.trim`
boundaries): space, tab, newline, carriage return, vertical tab,
form feed, no-break space. -/
def isWsChar (c : Char) : Bool :=
  c == ' ' || c == '\t' || c == '\n' || c == '\r' ||
  c == Char.ofNat 11 || c == Char.ofNat 12 || c == Char.ofNat 160

/-- JS `String.prototype.trim` over a character list. -/
def trimL (s : List Char) : List Char :=
  ((s.dropWhile isWsChar).reverse.dropWhile isWsChar).reverse

/-- Case-insensitive character equality (ASCII). -/
def eqCI (a b : Char) : Bool := lc a == lc b

/-- Case-insensitive prefix test: `pat` (given lowercased) is a prefix
of `s` up to ASCII case. -/
def isPreCI : List Char → List Char → Bool
  | [], _ => true
  | _ :: _, [] => false
  | p :: ps, c :: cs => (p == lc c) && isPreCI ps cs

/-- Exact prefix test. -/
def isPreEx : List Char → List Char → Bool
  | [], _ => true
  | _ :: _, [] => false
  | p :: ps, c :: cs => (p == c) && isPreEx ps cs

/-- `occursEx pat s`: some suffix of `s` starts with `pat` (exact
characters).  Models `RegExp.test` for a literal pattern. -/
def occursEx (pat : List Char) : List Char → Bool
  | [] => isPreEx pat []
  | c :: r => isPreEx pat (c :: r) || occursEx pat r

/-- Case-insensitive substring occurrence (`pat` given lowercased).
Models `RegExp.test` with the `/i` flag for a literal pattern. -/
def occursCI (pat : List Char) : List Char → Bool
  | [] => isPreCI pat []
  | c :: r => isPreCI pat (c :: r) || occursCI pat r

/-- Number of leftmost, non-overlapping occurrences of `pat` in `s`
(fuelled; the fuel is the length of `s`).  Models
`(s.match(new RegExp(pat, "g")) || []).length` for a literal
metacharacter-free pattern. -/
def countOccF (pat : List Char) : Nat → List Char → Nat
  | 0, _ => 0
  | _, [] => 0
  | Nat.succ f, c :: r =>
    if isPreEx pat (c :: r) then
      1 + countOccF pat f (List.drop (pat.length - 1) r)
    else
      countOccF pat f r

/-- Leftmost non-overlapping occurrence count. -/
def countOcc (pat s : List Char) : Nat := countOccF pat s.length s

/-- Global replacement of the exact pattern `pat` by `rep`, leftmost,
non-overlapping (fuelled).  Models `String.prototype.replace` with a
global literal regex. -/
def replAllF (pat rep : List Char) : Nat → List Char → List Char
  | 0, s => s
  | _, [] => []
  | Nat.succ f, c :: r =>
    if isPreEx pat (c :: r) then
      rep ++ replAllF pat rep f (List.drop (pat.length - 1) r)
    else
      c :: replAllF pat rep f r

/-- Global literal replacement. -/
def replAll (pat rep s : List Char) : List Char := replAllF pat rep s.length s

/-! ### Stable insertion sort

The JS `Array.prototype.sort` is specification-mandated stable; the
sources always sort with comparators of the shape `(a, b) => k b - k a`
(descending by a key) or ascending by a key.  A stable insertion sort
with a boolean `le` relation (`le a b` = `a` may stay before `b`)
models it exactly. -/

/-- Insert `x` into `l`, keeping `x` before the first element it is
`le`-related to (stable for `le` relations that hold on ties). -/
def insertS (le : α → α → Bool) (x : α) : List α → List α
  | [] => [x]
  | y :: ys => if le x y then x :: y :: ys else y :: insertS le x ys

/-- Stable insertion sort. -/
def sortS (le : α → α → Bool) : List α → List α
  | [] => []
  | x :: xs => insertS le x (sortS le xs)

theorem mem_insertS (le : α → α → Bool) (x a : α) (l : List α) :
    a ∈ insertS le x l ↔ a = x ∨ a ∈ l := by
  induction l with
  | nil => simp [insertS]
  | cons y ys ih =>
    simp only [insertS]
    by_cases h : le x y = true
    · simp [h]
    · simp only [if_neg h, List.mem_cons, ih]
      tauto

theorem mem_sortS (le : α → α → Bool) (a : α) (l : List α) :
    a ∈ sortS le l ↔ a ∈ l := by
  induction l with
  | nil => simp [sortS]
  | cons x xs ih => simp [sortS, mem_insertS, ih]

theorem length_insertS (le : α → α → Bool) (x : α) (l : List α) :
    (insertS le x l).length = l.length + 1 := by
  induction l with
  | nil => simp [insertS]
  | cons y ys ih =>
    simp only [insertS]
    by_cases h : le x y = true
    · simp [h]
    · simp [if_neg h, ih]

theorem length_sortS (le : α → α → Bool) (l : List α) :
    (sortS le l).length = l.length := by
  induction l with
  | nil => simp [sortS]
  | cons x xs ih => simp [sortS, length_insertS, ih]

theorem pairwise_insertS (le : α → α → Bool)
    (htot : ∀ a b, le a b = true ∨ le b a = true)
    (htr : ∀ a b c, le a b = true → le b c = true → le a c = true)
    (x : α) (l : List α)
    (hl : l.Pairwise (fun a b => le a b = true)) :
    (insertS le x l).Pairwise (fun a b => le a b = true) := by
  induction l with
  | nil => simp [insertS]
  | cons y ys ih =>
    rcases List.pairwise_cons.mp hl with ⟨hy, hys⟩
    simp only [insertS]
    by_cases h : le x y = true
    · rw [if_pos h]
      refine List.pairwise_cons.mpr ⟨?_, hl⟩
      intro b hb
      rcases List.mem_cons.mp hb with rfl | hb
      · exact h
      · exact htr x y b h (hy b hb)
    · rw [if_neg h]
      refine List.pairwise_cons.mpr ⟨?_, ih hys⟩
      intro b hb
      rcases (mem_insertS le x b ys).mp hb with rfl | hb
      · rcases htot y b with hyb | hby
        · exact hyb
        · exact absurd hby h
      · exact hy b hb

theorem pairwise_sortS (le : α → α → Bool)
    (htot : ∀ a b, le a b = true ∨ le b a = true)
    (htr : ∀ a b c, le a b = true → le b c = true → le a c = true)
    (l : List α) :
    (sortS le l).Pairwise (fun a b => le a b = true) := by
  induction l with
  | nil => simp [sortS]
  | cons x xs ih => exact pairwise_insertS le htot htr x (sortS le xs) ih

/-! ### JS string splitting -/

/-- Auxiliary scanner for `jsSplitWs` (fuelled). `cur` is the piece
being accumulated, in reverse. -/
def jsSplitWsF : Nat → List Char → List Char → List (List Char)
  | 0, cur, _ => [cur.reverse]
  | _, cur, [] => [cur.reverse]
  | Nat.succ f, cur, c :: r =>
    if isWsChar c then
      cur.reverse :: jsSplitWsF f [] (r.dropWhile isWsChar)
    else
      jsSplitWsF f (c :: cur) r

/-- Model of `s.split(/\s+/)`: split on maximal whitespace runs; a
leading or trailing run produces an empty piece, and the empty string
splits to `[""]`, exactly as in JS. -/
def jsSplitWs (s : List Char) : List (List Char) := jsSplitWsF s.length [] s

/-- Auxiliary scanner for `splitBlank` (fuelled). -/
def splitBlankF : Nat → List Char → List Char → List (List Char)
  | 0, cur, _ => [cur.reverse]
  | _, cur, [] => [cur.reverse]
  | Nat.succ f, cur, c :: r =>
    if c == '\n' && (r.headD ' ') == '\n' then
      cur.reverse :: splitBlankF f [] (r.dropWhile (· == '\n'))
    else
      splitBlankF f (c :: cur) r

/-- Model of `s.split(/\n{2,}/)`: split on maximal runs of two or more
newline characters. -/
def splitBlank (s : List Char) : List (List Char) := splitBlankF s.length [] s

/-! ### HTML primitive: entity decoding (lite renderer `decodeEntities`)

The JS source applies six **sequential** global `String.replace`
passes, in the order `&amp;` `&lt;` `&gt;` `&quot;` `&#39;` `&nbsp;`. -/

/-- `decodeEntities` over a character list: the six global replacement
passes of `lite-renderer.js`, applied sequentially in source order
(`&amp;` first). -/
def decodeEntitiesL (s : List Char) : List Char :=
  replAll "&nbsp;".data " ".data
    (replAll "&#39;".data [sq]
      (replAll "&quot;".data [dq]
        (replAll "&gt;".data ">".data
          (replAll "&lt;".data "<".data
            (replAll "&amp;".data "&".data s)))))

/-- The lite renderer's `decodeEntities`. -/
def decodeEntities (s : String) : String := ⟨decodeEntitiesL s.data⟩

theorem replAllF_id_of_head_not_mem (p : Char) (ps rep : List Char)
    (f : Nat) (s : List Char) (h : ∀ c ∈ s, c ≠ p) :
    replAllF (p :: ps) rep f s = s := by
  induction f generalizing s with
  | zero => cases s <;> rfl
  | succ f ih =>
    cases s with
    | nil => rfl
    | cons c r =>
      have hc : c ≠ p := h c (List.mem_cons_self c r)
      have hpre : isPreEx (p :: ps) (c :: r) = false := by
        simp [isPreEx, Ne.symm hc]
      simp only [replAllF, hpre, Bool.false_eq_true, if_false]
      have := ih r (fun x hx => h x (List.mem_cons_of_mem c hx))
      rw [this]

theorem replAll_id_of_head_not_mem (p : Char) (ps rep : List Char)
    (s : List Char) (h : ∀ c ∈ s, c ≠ p) :
    replAll (p :: ps) rep s = s :=
  replAllF_id_of_head_not_mem p ps rep s.length s h

theorem decodeEntitiesL_id_of_no_amp (s : List Char)
    (h : ∀ c ∈ s, c ≠ '&') : decodeEntitiesL s = s := by
  unfold decodeEntitiesL
  rw [show ("&amp;".data) = '&' :: "amp;".data from rfl,
      replAll_id_of_head_not_mem '&' _ _ s h,
      show ("&lt;".data) = '&' :: "lt;".data from rfl,
      replAll_id_of_head_not_mem '&' _ _ s h,
      show ("&gt;".data) = '&' :: "gt;".data from rfl,
      replAll_id_of_head_not_mem '&' _ _ s h,
      show ("&quot;".data) = '&' :: "quot;".data from rfl,
      replAll_id_of_head_not_mem '&' _ _ s h,
      show ("&#39;".data) = '&' :: "#39;".data from rfl,
      replAll_id_of_head_not_mem '&' _ _ s h,
      show ("&nbsp;".data) = '&' :: "nbsp;".data from rfl,
      replAll_id_of_head_not_mem '&' _ _ s h]

/-- Claim C5, counterexample.  The claim states that the
decode-entities primitive decodes in one pass with no further decoding,
so that the input `&amp;lt;` yields the string `&lt;` and not `<`.
The source chains six sequential global replaces with `&amp;` first, so
`&amp;lt;` is decoded twice: to `&lt;` by the first pass and then to
`<` by the second.  This theorem exhibits the double decoding. -/
theorem C5_counterexample :
    decodeEntities "&amp;lt;" = "<" ∧ decodeEntities "&amp;lt;" ≠ "&lt;" := by
  constructor
  · decide
  · decide

/-- Claim C5, amended.  The decode-entities primitive performs six
sequential global replacement passes in the order `&amp;` `&lt;` `&gt;`
`&quot;` `&#39;` `&nbsp;`.  A string containing no ampersand is left
unchanged, each single entity alone decodes to its literal character,
but an ampersand-escaped entity such as `&amp;lt;` is decoded twice,
yielding `<`. -/
theorem C5_amended (s : String) (h : ∀ c ∈ s.data, c ≠ '&') :
    decodeEntities s = s ∧
    decodeEntities "&amp;" = "&" ∧
    decodeEntities "&lt;" = "<" ∧
    decodeEntities "&gt;" = ">" ∧
    decodeEntities "&quot;" = String.mk [dq] ∧
    decodeEntities "&#39;" = String.mk [sq] ∧
    decodeEntities "&nbsp;" = " " ∧
    decodeEntities "&amp;lt;" = "<" := by
  refine ⟨?_, by decide, by decide, by decide, by decide, by decide,
    by decide, by decide⟩
  show String.mk (decodeEntitiesL s.data) = s
  rw [decodeEntitiesL_id_of_no_amp s.data h]

/-- Claim C5, witness: the amended theorem applied to a concrete
ampersand-free string. -/
theorem C5_witness : decodeEntities "hello world" = "hello world" :=
  (C5_amended "hello world" (by decide)).1

/-! ### Regex-fragment scanners

Each JS regex used by the sources is a fixed pattern; each is modelled
by a bespoke scanner with the same matching semantics (leftmost match,
lazy `[\s\S]*?` = earliest closing token, character classes expanded,
`/i` = ASCII case folding). -/

/-- Try to consume the (lowercased) pattern `pat` case-insensitively at
the head of `s`; return the rest on success. -/
def eatCI (pat : List Char) (s : List Char) : Option (List Char) :=
  if isPreCI pat s then some (s.drop pat.length) else none

/-- Consume `\s+` (one or more whitespace characters). -/
def eatWs1 : List Char → Option (List Char)
  | [] => none
  | c :: r => if isWsChar c then some (r.dropWhile isWsChar) else none

/-- Consume one character of the class `["']`. -/
def eatQuote : List Char → Option (List Char)
  | [] => none
  | c :: r => if c == dq || c == sq then some r else none

/-- `anyAt p s`: `p` holds at some suffix of `s`.  Models an
unanchored `RegExp.test`. -/
def anyAt (p : List Char → Bool) : List Char → Bool
  | [] => p []
  | c :: r => p (c :: r) || anyAt p r

/-- Index of the first case-insensitive occurrence of `pat`. -/
def findCI (pat : List Char) : List Char → Option Nat
  | [] => if isPreCI pat [] then some 0 else none
  | c :: r =>
    if isPreCI pat (c :: r) then some 0 else (findCI pat r).map (· + 1)

/-- Scan for the first suffix at which `f` succeeds, returning `f`'s
output there. -/
def scanFirst (f : List Char → Option (List Char)) : List Char → Option (List Char)
  | [] => f []
  | c :: r =>
    match f (c :: r) with
    | some out => some out
    | none => scanFirst f r

/-- Remove every span matched by the lazy block regex
`opn[\s\S]*?cls` (case-insensitive, global), e.g.
`/<script[\s\S]*?<\/script>/gi`.  Fuelled scanner. -/
def stripLazyF (opn cls : List Char) : Nat → List Char → List Char
  | 0, s => s
  | _, [] => []
  | Nat.succ f, c :: r =>
    if isPreCI opn (c :: r) then
      match findCI cls (List.drop opn.length (c :: r)) with
      | some k => stripLazyF opn cls f (List.drop (opn.length + k + cls.length) (c :: r))
      | none => c :: stripLazyF opn cls f r
    else c :: stripLazyF opn cls f r

/-- Remove lazy blocks (see `stripLazyF`). -/
def stripLazy (opn cls s : List Char) : List Char := stripLazyF opn cls s.length s

/-- Total length of all spans matched by the lazy block regex (the
`scriptBlocks.reduce((sum, m) => sum + m[0].length, 0)` of the SPA
detector).  Fuelled scanner. -/
def sumLazyF (opn cls : List Char) : Nat → List Char → Nat
  | 0, _ => 0
  | _, [] => 0
  | Nat.succ f, c :: r =>
    if isPreCI opn (c :: r) then
      match findCI cls (List.drop opn.length (c :: r)) with
      | some k =>
        (opn.length + k + cls.length) +
          sumLazyF opn cls f (List.drop (opn.length + k + cls.length) (c :: r))
      | none => sumLazyF opn cls f r
    else sumLazyF opn cls f r

/-- Total matched length of lazy blocks. -/
def sumLazy (opn cls s : List Char) : Nat := sumLazyF opn cls s.length s

/-- Replace every match of `/<[^>]+>/g` by a single space (a `<` with
no later `>`, or an empty `<>`, does not match and is kept). -/
def stripAngleF : Nat → List Char → List Char
  | 0, s => s
  | _, [] => []
  | Nat.succ f, c :: r =>
    if c == '<' then
      match r.findIdx? (· == '>') with
      | some 0 => c :: stripAngleF f r
      | some (Nat.succ k) => ' ' :: stripAngleF f (r.drop (k + 2))
      | none => c :: stripAngleF f r
    else c :: stripAngleF f r

/-- Replace `<...>` tags by single spaces. -/
def stripAngle (s : List Char) : List Char := stripAngleF s.length s

/-- Replace every run of whitespace by a single space
(`.replace(/\s+/g, ' ')`). -/
def collapseWsF : Nat → List Char → List Char
  | 0, s => s
  | _, [] => []
  | Nat.succ f, c :: r =>
    if isWsChar c then ' ' :: collapseWsF f (r.dropWhile isWsChar)
    else c :: collapseWsF f r

/-- Collapse whitespace runs to single spaces. -/
def collapseWs (s : List Char) : List Char := collapseWsF s.length s

/-- The lite renderer's `stripTags`: replace `<…>` by a space, collapse
whitespace, trim. -/
def stripTagsL (s : List Char) : List Char := trimL (collapseWs (stripAngle s))

/-- `stripTags` on strings. -/
def stripTags (s : String) : String := ⟨stripTagsL s.data⟩

/-! ### SPA detector (`detectSPA` of `smart-renderer.js`) -/

/-- Matcher for `/<div\s+id=["']NAME["']\s*><\/div>/i` at the head of
the input (`NAME` given lowercased). -/
def emptyDivAt (idn : List Char) (s : List Char) : Bool :=
  (do
    let s ← eatCI "<div".data s
    let s ← eatWs1 s
    let s ← eatCI "id=".data s
    let s ← eatQuote s
    let s ← eatCI idn s
    let s ← eatQuote s
    let s := s.dropWhile isWsChar
    eatCI "></div>".data s).isSome

/-- Matcher for `/<div\s+id=["']__next["']/i` at the head. -/
def nextDivAt (s : List Char) : Bool :=
  (do
    let s ← eatCI "<div".data s
    let s ← eatWs1 s
    let s ← eatCI "id=".data s
    let s ← eatQuote s
    let s ← eatCI "__next".data s
    eatQuote s).isSome

/-- Matcher for `/class=["'][^"']*WORD[^"']*["']/i` at the head: a
quoted class attribute whose quote-free value contains `WORD`. -/
def classTokenAt (word : List Char) (s : List Char) : Bool :=
  (do
    let s ← eatCI "class=".data s
    let s ← eatQuote s
    let run := s.takeWhile (fun c => !(c == dq || c == sq))
    let rest := s.drop run.length
    let _ ← eatQuote rest
    if occursCI word run then some ([] : List Char) else none).isSome

/-- Matcher for `/aria-label=["']loading["']/i` at the head. -/
def ariaLoadingAt (s : List Char) : Bool :=
  (do
    let s ← eatCI "aria-label=".data s
    let s ← eatQuote s
    let s ← eatCI "loading".data s
    eatQuote s).isSome

/-- Matcher for `/content=["']GEN/i` at the head (meta generator
signal; `GEN` given lowercased). -/
def metaGenAt (gen : List Char) (s : List Char) : Bool :=
  (do
    let s ← eatCI "content=".data s
    let s ← eatQuote s
    eatCI gen s).isSome

/-- Is `d` a digit `1`–`6` (by code point)? -/
def isH16 (d : Char) : Bool := 49 ≤ d.toNat && d.toNat ≤ 54

/-- Matcher for the opening part `<h[1-6][^>]*>` of the heading-count
regex; returns the rest after the `>`. -/
def headOpenAt : List Char → Option (List Char)
  | c0 :: c1 :: d :: r =>
    if c0 == '<' && eqCI 'h' c1 && isH16 d then
      match r.findIdx? (· == '>') with
      | some k => some (r.drop (k + 1))
      | none => none
    else none
  | _ => none

/-- Matcher for the closing `</h[1-6]>`. -/
def closeHeadAt : List Char → Option (List Char)
  | a :: b :: c :: d :: e :: r =>
    if a == '<' && b == '/' && eqCI 'h' c && isH16 d && e == '>' then some r
    else none
  | _ => none

/-- Number of matches of `/<h[1-6][^>]*>[\s\S]*?<\/h[1-6]>/gi`
(fuelled leftmost scan, continuing after each match). -/
def countHeadF : Nat → List Char → Nat
  | 0, _ => 0
  | _, [] => 0
  | Nat.succ f, c :: r =>
    match headOpenAt (c :: r) with
    | some after =>
      match scanFirst closeHeadAt after with
      | some rest => 1 + countHeadF f rest
      | none => countHeadF f r
    | none => countHeadF f r

/-- Heading-block count of the SPA detector. -/
def countHead (s : List Char) : Nat := countHeadF s.length s

/-- Matcher for one match of `/<p[^>]*>[^<]{20,}<\/p>/gi` at the head;
returns the rest after the match. -/
def paraAt : List Char → Option (List Char)
  | c0 :: c1 :: rest =>
    if c0 == '<' && eqCI 'p' c1 then
      match rest.findIdx? (· == '>') with
      | some k =>
        let body := rest.drop (k + 1)
        let run := body.takeWhile (· != '<')
        if 20 ≤ run.length && isPreCI "</p>".data (body.drop run.length) then
          some ((body.drop run.length).drop 4)
        else none
      | none => none
    else none
  | _ => none

/-- Number of substantial-paragraph matches (fuelled leftmost scan). -/
def countParaF : Nat → List Char → Nat
  | 0, _ => 0
  | _, [] => 0
  | Nat.succ f, c :: r =>
    match paraAt (c :: r) with
    | some rest => 1 + countParaF f rest
    | none => countParaF f r

/-- Substantial-paragraph count of the SPA detector. -/
def countPara (s : List Char) : Nat := countParaF s.length s

/-- One identifier per `reasons.push` site of `detectSPA`, in scan
order.  The JS strings interpolate computed percentages; the
identifier names the signal (which is what the spec's `reasons`
clause is about). -/
inductive Reason where
  | reactRootDiv | vueAppDiv | nextRoot | angularAppRoot
  | reactDataAttr | vueAttr | angularVersion | nuxtSignal
  | nextDataHydration | reduxInitialState | svelteComponent | emberApp
  | veryLowText | lowText | scriptHeavy | skeletonLoading
  | noSemanticContent | metaGenerator
deriving Repr, DecidableEq

/-- One entry of the `spaSignals` table of `detectSPA`. -/
structure SpaSignal where
  test : List Char → Bool
  why : Reason
  weight : Int

/-- The `spaSignals` table, in source order. -/
def spaSignals : List SpaSignal :=
  [ ⟨anyAt (emptyDivAt "root".data), Reason.reactRootDiv, 4⟩,
    ⟨anyAt (emptyDivAt "app".data), Reason.vueAppDiv, 4⟩,
    ⟨anyAt nextDivAt, Reason.nextRoot, 3⟩,
    ⟨occursCI "<app-root>".data, Reason.angularAppRoot, 4⟩,
    ⟨occursCI "data-reactroot".data, Reason.reactDataAttr, 3⟩,
    ⟨occursCI "data-vue-app".data, Reason.vueAttr, 4⟩,
    ⟨occursCI "ng-version=".data, Reason.angularVersion, 3⟩,
    ⟨occursCI "__nuxt".data, Reason.nuxtSignal, 2⟩,
    ⟨occursCI "window.__next_data__".data, Reason.nextDataHydration, 3⟩,
    ⟨occursCI "window.__initial_state__".data, Reason.reduxInitialState, 2⟩,
    ⟨occursCI "svelte-".data, Reason.svelteComponent, 2⟩,
    ⟨occursCI "ember-application".data, Reason.emberApp, 3⟩ ]

/-- The signal loop of `detectSPA`: fold over `spaSignals`, pushing the
reason and adding the weight of each signal whose pattern matches. -/
def sigFold (h : List Char) : List Reason × Int :=
  spaSignals.foldl
    (fun acc sg => if sg.test h then (acc.1 ++ [sg.why], acc.2 + sg.weight) else acc)
    (([] : List Reason), (0 : Int))

/-- Script bytes of the raw HTML (total length of
`/<script[\s\S]*?<\/script>/gi` matches). -/
def scriptSizeOf (h : List Char) : Nat := sumLazy "<script".data "</script>".data h

/-- Visible-text length of the raw HTML: remove script and style
blocks, strip remaining tags to spaces, collapse whitespace, trim. -/
def textLenOf (h : List Char) : Nat :=
  (trimL (collapseWs (stripAngle
    (stripLazy "<style".data "</style>".data
      (stripLazy "<script".data "</script>".data h))))).length

/-- `textRatio < 0.05 && htmlSize > 5000`, with the float comparison
replaced by the exact rational cross-multiplication
`20 * textLen < max htmlSize 1`. -/
def veryLowTextCond (h : List Char) : Bool :=
  decide (20 * textLenOf h < max h.length 1) && decide (5000 < h.length)

/-- `textRatio < 0.10 && htmlSize > 10000` (exact rational form). -/
def lowTextCond (h : List Char) : Bool :=
  decide (10 * textLenOf h < max h.length 1) && decide (10000 < h.length)

/-- `scriptRatio > 0.50` (exact rational form). -/
def scriptHeavyCond (h : List Char) : Bool :=
  decide (max h.length 1 < 2 * scriptSizeOf h)

/-- The four loading/skeleton patterns of `detectSPA`. -/
def skeletonTests : List (List Char → Bool) :=
  [ anyAt (classTokenAt "loading".data),
    anyAt (classTokenAt "skeleton".data),
    anyAt (classTokenAt "spinner".data),
    anyAt ariaLoadingAt ]

/-- `skeletonHits >= 2`. -/
def skeletonCond (h : List Char) : Bool :=
  decide (2 ≤ (skeletonTests.filter (fun t => t h)).length)

/-- `headings.length === 0 && paragraphs.length < 3 && htmlSize > 20000`. -/
def semanticCond (h : List Char) : Bool :=
  (countHead h == 0) && decide (countPara h < 3) && decide (20000 < h.length)

/-- Meta generator mentions React or Next.js. -/
def metaGenCond (h : List Char) : Bool :=
  anyAt (metaGenAt "react".data) h || anyAt (metaGenAt "next.js".data) h

/-- `application/ld+json` present and `textRatio > 0.15` (exact
rational form). -/
def ldJsonCond (h : List Char) : Bool :=
  occursCI "application/ld+json".data h &&
    decide (3 * max h.length 1 < 20 * textLenOf h)

/-- The SPA detection report. -/
structure Detection where
  isSPA : Bool
  score : Int
  confidence : String
  reasons : List Reason
deriving Repr, DecidableEq

/-- `detectSPA` of `smart-renderer.js`: the signal fold, then the
ratio, skeleton, semantic-content and meta-generator additions (each
pushing its reason), then the `ld+json` subtraction (which pushes no
reason), then the thresholds. -/
def detectSPA (html : String) : Detection :=
  let h := html.data
  let s0 := sigFold h
  let s1 := if veryLowTextCond h then (s0.1 ++ [Reason.veryLowText], s0.2 + 4)
            else if lowTextCond h then (s0.1 ++ [Reason.lowText], s0.2 + 2)
            else s0
  let s2 := if scriptHeavyCond h then (s1.1 ++ [Reason.scriptHeavy], s1.2 + 2) else s1
  let s3 := if skeletonCond h then (s2.1 ++ [Reason.skeletonLoading], s2.2 + 2) else s2
  let s4 := if semanticCond h then (s3.1 ++ [Reason.noSemanticContent], s3.2 + 3) else s3
  let s5 := if metaGenCond h then (s4.1 ++ [Reason.metaGenerator], s4.2 + 2) else s4
  let score := if ldJsonCond h then s5.2 - 2 else s5.2
  { isSPA := decide (4 ≤ score)
    score := score
    confidence := if 8 ≤ score then "high" else if 4 ≤ score then "medium" else "low"
    reasons := s5.1 }

/-- The list of signals that fired, in scan order (independent
characterization used by the C4 theorem). -/
def firedReasons (html : String) : List Reason :=
  let h := html.data
  ((spaSignals.filter (fun sg => sg.test h)).map (fun sg => sg.why))
  ++ (if veryLowTextCond h then [Reason.veryLowText]
      else if lowTextCond h then [Reason.lowText] else [])
  ++ (if scriptHeavyCond h then [Reason.scriptHeavy] else [])
  ++ (if skeletonCond h then [Reason.skeletonLoading] else [])
  ++ (if semanticCond h then [Reason.noSemanticContent] else [])
  ++ (if metaGenCond h then [Reason.metaGenerator] else [])

theorem sigFoldAux_fst (h : List Char) (l : List SpaSignal) (rs : List Reason) (n : Int) :
    (l.foldl
      (fun acc sg => if sg.test h then (acc.1 ++ [sg.why], acc.2 + sg.weight) else acc)
      (rs, n)).1
    = rs ++ (l.filter (fun sg => sg.test h)).map (fun sg => sg.why) := by
  induction l generalizing rs n with
  | nil => simp
  | cons x xs ih =>
    by_cases hx : x.test h = true
    · simp [List.foldl_cons, hx, ih, List.filter_cons]
    · simp [List.foldl_cons, hx, ih, List.filter_cons]

theorem sigFoldAux_snd (h : List Char) (l : List SpaSignal) (rs : List Reason) (n : Int) :
    (l.foldl
      (fun acc sg => if sg.test h then (acc.1 ++ [sg.why], acc.2 + sg.weight) else acc)
      (rs, n)).2
    = n + (((l.filter (fun sg => sg.test h)).map (fun sg => sg.weight)).sum) := by
  induction l generalizing rs n with
  | nil => simp
  | cons x xs ih =>
    by_cases hx : x.test h = true
    · simp [List.foldl_cons, hx, ih, List.filter_cons]
      ring
    · simp [List.foldl_cons, hx, ih, List.filter_cons]

theorem sigFold_fst (h : List Char) :
    (sigFold h).1 = (spaSignals.filter (fun sg => sg.test h)).map (fun sg => sg.why) := by
  simpa using sigFoldAux_fst h spaSignals [] 0

theorem sigFold_snd (h : List Char) :
    (sigFold h).2 = ((spaSignals.filter (fun sg => sg.test h)).map (fun sg => sg.weight)).sum := by
  simpa using sigFoldAux_snd h spaSignals [] 0

theorem detectSPA_isSPA_eq (html : String) :
    (detectSPA html).isSPA = decide (4 ≤ (detectSPA html).score) := rfl

theorem detectSPA_confidence_eq (html : String) :
    (detectSPA html).confidence =
      (if 8 ≤ (detectSPA html).score then "high"
       else if 4 ≤ (detectSPA html).score then "medium" else "low") := rfl

theorem detectSPA_reasons_eq (html : String) :
    (detectSPA html).reasons = firedReasons html := by
  simp only [detectSPA, firedReasons, sigFold_fst]
  by_cases c1 : veryLowTextCond html.data = true <;>
    by_cases c2 : lowTextCond html.data = true <;>
    by_cases c3 : scriptHeavyCond html.data = true <;>
    by_cases c4 : skeletonCond html.data = true <;>
    by_cases c5 : semanticCond html.data = true <;>
    by_cases c6 : metaGenCond html.data = true <;>
    simp [c1, c2, c3, c4, c5, c6, List.append_assoc, sigFold_fst]

theorem conf_high_iff (s : Int) :
    ((if 8 ≤ s then "high" else if 4 ≤ s then "medium" else "low") = "high")
      ↔ 8 ≤ s := by
  split_ifs with h1 h2
  · simp [h1]
  · have hne : ("medium" : String) ≠ "high" := by decide
    simp [hne, h1]
  · have hne : ("low" : String) ≠ "high" := by decide
    simp [hne, h1]

theorem conf_medium_iff (s : Int) :
    ((if 8 ≤ s then "high" else if 4 ≤ s then "medium" else "low") = "medium")
      ↔ (4 ≤ s ∧ s < 8) := by
  split_ifs with h1 h2
  · have hne : ("high" : String) ≠ "medium" := by decide
    simp [hne]
    omega
  · simp [h2]
    omega
  · have hne : ("low" : String) ≠ "medium" := by decide
    simp [hne]
    omega

theorem conf_low_iff (s : Int) :
    ((if 8 ≤ s then "high" else if 4 ≤ s then "medium" else "low") = "low")
      ↔ s < 4 := by
  split_ifs with h1 h2
  · have hne : ("high" : String) ≠ "low" := by decide
    simp [hne]
    omega
  · have hne : ("medium" : String) ≠ "low" := by decide
    simp [hne]
    omega
  · simp
    omega

/-- Claim C4: for every HTML string, `detectSPA` returns `isSPA = true`
iff the computed score is at least 4; the confidence is `high` iff the
score is at least 8, `medium` iff the score is in `[4, 8)`, and `low`
otherwise; and the reasons are exactly the signals that fired, in scan
order. -/
theorem C4_detect_thresholds (html : String) :
    ((detectSPA html).isSPA = true ↔ 4 ≤ (detectSPA html).score) ∧
    ((detectSPA html).confidence = "high" ↔ 8 ≤ (detectSPA html).score) ∧
    ((detectSPA html).confidence = "medium" ↔
      (4 ≤ (detectSPA html).score ∧ (detectSPA html).score < 8)) ∧
    ((detectSPA html).confidence = "low" ↔ (detectSPA html).score < 4) ∧
    (detectSPA html).reasons = firedReasons html := by
  refine ⟨?_, ?_, ?_, ?_, detectSPA_reasons_eq html⟩
  · rw [detectSPA_isSPA_eq]
    exact decide_eq_true_iff
  · rw [detectSPA_confidence_eq]
    exact conf_high_iff _
  · rw [detectSPA_confidence_eq]
    exact conf_medium_iff _
  · rw [detectSPA_confidence_eq]
    exact conf_low_iff _

theorem weightSum_mono (l : List SpaSignal) (p q : SpaSignal → Bool)
    (himp : ∀ sg ∈ l, p sg = true → q sg = true)
    (hpos : ∀ sg ∈ l, 0 ≤ sg.weight) :
    ((l.filter p).map (fun sg => sg.weight)).sum
      ≤ ((l.filter q).map (fun sg => sg.weight)).sum := by
  induction l with
  | nil => simp
  | cons x xs ih =>
    have hx : ∀ sg ∈ xs, p sg = true → q sg = true :=
      fun sg hs => himp sg (List.mem_cons_of_mem _ hs)
    have hp : ∀ sg ∈ xs, 0 ≤ sg.weight :=
      fun sg hs => hpos sg (List.mem_cons_of_mem _ hs)
    have hih := ih hx hp
    by_cases hpx : p x = true
    · have hqx := himp x (List.mem_cons_self x xs) hpx
      simp only [List.filter_cons, hpx, hqx, if_true, List.map_cons, List.sum_cons]
      linarith
    · by_cases hqx : q x = true
      · have hw := hpos x (List.mem_cons_self x xs)
        simp only [List.filter_cons, hpx, hqx, Bool.false_eq_true, if_false, if_true,
          List.map_cons, List.sum_cons]
        linarith
      · simp only [List.filter_cons, hpx, hqx, Bool.false_eq_true, if_false]
        exact hih

theorem spaSignals_weight_nonneg : ∀ sg ∈ spaSignals, 0 ≤ sg.weight := by
  intro sg hsg
  simp only [spaSignals, List.mem_cons, List.not_mem_nil, or_false] at hsg
  rcases hsg with rfl | rfl | rfl | rfl | rfl | rfl | rfl | rfl | rfl | rfl | rfl | rfl <;>
    norm_num

/-- Claim C7, counterexample.  The claim asserts that extending an HTML
string so that one additional positive-weighted signal matches never
decreases the score, and that removing the `application/ld+json`
trigger never increases the score.  Both parts fail: removing the
`ld+json` trigger from a high-text-ratio page removes the −2
adjustment (the score rises from −2 to 0), and inserting the text
`svelte-` into the empty React root div adds the positive `svelte-`
signal (+2) while unmatching the empty-root-div signal (+4), dropping
the score from 4 to 2. -/
theorem C7_counterexample :
    ((detectSPA "application/ld+json hello world").score <
      (detectSPA "hello world").score) ∧
    occursCI "application/ld+json".data "application/ld+json hello world".data = true ∧
    occursCI "application/ld+json".data "hello world".data = false ∧
    ("<div id=\x22root\x22>" ++ "svelte-" ++ "</div>"
      = "<div id=\x22root\x22>svelte-</div>") ∧
    ("<div id=\x22root\x22>" ++ "</div>" = "<div id=\x22root\x22></div>") ∧
    occursCI "svelte-".data "<div id=\x22root\x22>svelte-</div>".data = true ∧
    occursCI "svelte-".data "<div id=\x22root\x22></div>".data = false ∧
    ((detectSPA "<div id=\x22root\x22>svelte-</div>").score <
      (detectSPA "<div id=\x22root\x22></div>").score) := by
  refine ⟨by decide, by decide, by decide, by decide, by decide, by decide,
    by decide, by decide⟩

/-- Claim C7, amended.  Monotonicity holds at the level of the
framework-signal subtotal: if every `spaSignals` entry that matches
`h1` also matches `h2`, the signal fold's score subtotal for `h1` is
at most that for `h2`.  The full `detectSPA` score is not monotone
under adding or removing text, because the text-ratio, script-ratio,
semantic-content and `ld+json` adjustments also change (see the
counterexample). -/
theorem C7_amended (h1 h2 : List Char)
    (hmono : ∀ sg ∈ spaSignals, sg.test h1 = true → sg.test h2 = true) :
    (sigFold h1).2 ≤ (sigFold h2).2 := by
  rw [sigFold_snd, sigFold_snd]
  exact weightSum_mono spaSignals (fun sg => sg.test h1) (fun sg => sg.test h2)
    hmono spaSignals_weight_nonneg

/-- Claim C7, witness: the amended theorem applied to concrete HTML
strings (only the second matches the `svelte-` signal). -/
theorem C7_witness :
    (sigFold "hello".data).2 ≤ (sigFold "hello svelte-".data).2 :=
  C7_amended "hello".data "hello svelte-".data (by decide)

/-! ### Page data model (the PageRecord of the lite renderer)

Field names follow the JS records; `sect` stands for the JS field
`section` (a Lean keyword) and `partFlag` for the JS meta field
`partial` (a Lean keyword).  Form fields are the tagged variants the
spec's design notes prescribe for the JS duck-typed records. -/

/-- One extracted heading. -/
structure Heading where
  level : Nat
  text : String
deriving Repr, DecidableEq

/-- One extracted link. -/
structure Link where
  text : String
  href : String
deriving Repr, DecidableEq

/-- One form field (`input` / `textarea` / `select`, as tagged by the
JS `tag` field). -/
inductive Field where
  | input (type : String) (name ph : Option String) (required : Bool)
  | textarea (name ph : Option String) (required : Bool)
  | select (name : Option String) (options : List String)
deriving Repr, DecidableEq

/-- One extracted form. -/
structure Form where
  action : Option String
  method : String
  fields : List Field
deriving Repr, DecidableEq

/-- One extracted image. -/
structure Image where
  src : String
  alt : Option String
  width : Option Int
  height : Option Int
deriving Repr, DecidableEq

/-- The `stats` record of `parseHTML`. -/
structure PageStats where
  headingCount : Nat
  linkCount : Nat
  formCount : Nat
  imageCount : Nat
  tableCount : Nat
  textLength : Nat
deriving Repr, DecidableEq

/-- The parsed page record. -/
structure Page where
  url : String
  title : Option String
  meta : List (String × String)
  headings : List Heading
  links : List Link
  forms : List Form
  images : List Image
  textContent : String
  tables : List (List (List String))
  stats : PageStats
  httpStatus : Option Nat := none
  contentType : Option String := none
  renderer : Option String := none
deriving Repr, DecidableEq

/-- Lookup in a JS-object-as-association-list (first binding wins;
`objSet` keeps keys unique). -/
def objGet (m : List (String × String)) (k : String) : Option String :=
  (m.find? (fun p => p.1 == k)).map (fun p => p.2)

/-- JS object assignment: update the existing key in place, else
append. -/
def objSet (m : List (String × String)) (k v : String) : List (String × String) :=
  if m.any (fun p => p.1 == k) then
    m.map (fun p => if p.1 == k then (k, v) else p)
  else m ++ [(k, v)]

/-! ### Semantic chunker (`semantic-chunks.js`) -/

/-- The chunk `meta` object (union of the shapes the chunker
produces); `partFlag` is the JS field `partial`, `form` stores the
form object of a form chunk. -/
structure ChunkMeta where
  isSummary : Bool := false
  isNav : Bool := false
  partFlag : Bool := false
  part : Option Nat := none
  form : Option Form := none
  linkCount : Option Nat := none
deriving Repr, DecidableEq

/-- One semantic chunk; `sect` is the JS field `section`. -/
structure Chunk where
  id : Nat
  type : String
  sect : Option String
  text : String
  score : Int
  meta : ChunkMeta
deriving Repr, DecidableEq

/-- Options of `chunkPage`. -/
structure ChunkOpts where
  maxChunkSize : Option Nat := none
  minScore : Option Int := none
  includeNav : Bool := false
deriving Repr, DecidableEq

/-- Scoring context of `scoreBlock`: the link density is carried as
the exact pair (link matches, word count); `underHeading` as a
boolean. -/
structure ScoreCtx where
  linkNum : Nat
  wordCount : Nat
  underHeading : Bool
deriving Repr, DecidableEq

/-- `linkNum / wordCount > p / q` with density 0 when `wordCount = 0`
(exact rational form of the JS float comparison). -/
def ldGt (ln wc p q : Nat) : Bool := decide (0 < wc) && decide (p * wc < q * ln)

/-- Is `c` an ASCII word character (`\w`)? -/
def isWordChar (c : Char) : Bool := c.isAlphanum || c == '_'

/-- Does `w` occur at the head with word boundaries on both sides
(`prev` is the character before the head, if any)? -/
def wordBoundedAt (w : List Char) (prev : Option Char) (s : List Char) : Bool :=
  isPreEx w s &&
  (match prev with | none => true | some p => !isWordChar p) &&
  !isWordChar ((s.drop w.length).headD ' ')

/-- Does `w` occur anywhere with word boundaries (`\bw\b`)? -/
def occursWordF (w : List Char) : Option Char → List Char → Bool
  | _, [] => false
  | prev, c :: r => wordBoundedAt w prev (c :: r) || occursWordF w (some c) r

/-- `\bw\b` occurrence in `s`. -/
def occursWord (w : List Char) (s : List Char) : Bool := occursWordF w none s

/-- A backtick-delimited span with nonempty backtick-free body starts
at the head (first alternative of the code-marker regex). -/
def btickPairAt (s : List Char) : Bool :=
  match s with
  | c :: r =>
    c == btick &&
    (let run := r.takeWhile (fun d => !(d == btick))
     decide (1 ≤ run.length) && decide (run.length < r.length))
  | [] => false

/-- The code-marker regex of `scoreBlock`:
``/`[^`]+`|```|\bconst\b|\bfunction\b|\bimport\b/`` (case-sensitive). -/
def hasCodeMarker (t : List Char) : Bool :=
  anyAt btickPairAt t || occursEx [btick, btick, btick] t ||
  occursWord "const".data t || occursWord "function".data t ||
  occursWord "import".data t

/-- The navigation-start words of `scoreBlock` (prefix-anchored). -/
def navWords : List String :=
  ["home", "menu", "search", "login", "sign in", "sign up", "subscribe",
   "newsletter", "cookie", "privacy", "terms"]

/-- `/^(home|menu|...)/i` on the lowercased text. -/
def navStart (lower : List Char) : Bool :=
  navWords.any (fun w => isPreEx w.data lower)

/-- `/copyright|all rights reserved|powered by/i` on the lowercased
text. -/
def boilerplate (lower : List Char) : Bool :=
  ["copyright", "all rights reserved", "powered by"].any
    (fun w => occursEx w.data lower)

/-- `/(?:how to|step|guide|tutorial|example|note:|warning:|important:)/i`
on the lowercased text. -/
def contentSignal (lower : List Char) : Bool :=
  ["how to", "step", "guide", "tutorial", "example", "note:", "warning:",
   "important:"].any (fun w => occursEx w.data lower)

/-- `scoreBlock` of `semantic-chunks.js`. -/
def scoreBlock (text : String) (ctx : ScoreCtx) : Int :=
  let t := text.data
  let lower := lowerL t
  let len := t.length
  let s1 : Int := if 50 ≤ len ∧ len ≤ 500 then 2
                  else if 500 < len ∧ len ≤ 2000 then 1
                  else if len < 20 then -2 else 0
  let s2 := if t.any Char.isDigit then s1 + 1 else s1
  let s3 := if hasCodeMarker t then s2 + 2 else s2
  let s4 := if navStart lower then s3 - 3 else s3
  let s5 := if boilerplate lower then s4 - 2 else s4
  let s6 := if ldGt ctx.linkNum ctx.wordCount 7 10 then s5 - 2 else s5
  let s7 := if ctx.underHeading then s6 + 1 else s6
  if contentSignal lower then s7 + 2 else s7

/-- The `meta` argument of `detectType`. -/
structure TypeMeta where
  isCode : Bool := false
  tag : Option String := none
  standalone : Bool := false
deriving Repr, DecidableEq

/-- `/^(```|~~~|\$\s|\>\s)/` on the raw text. -/
def codeStart (t : List Char) : Bool :=
  isPreEx [btick, btick, btick] t || isPreEx "~~~".data t ||
  (match t with
   | a :: b :: _ => (a == '$' || a == '>') && isWsChar b
   | _ => false)

/-- Is the tag `h1`…`h6`? -/
def isHeadTag : Option String → Bool
  | some tg =>
    match tg.data with
    | [h, d] => h == 'h' && isH16 d
    | _ => false
  | none => false

/-- Bullet start (`•`, `-`, `*`) on the lowercased trimmed text. -/
def bulletStart (lower : List Char) : Bool :=
  match lower with
  | c :: _ => c == Char.ofNat 8226 || c == '-' || c == '*'
  | [] => false

/-- `/^(note|warning|tip|important|caution|info):/i`. -/
def calloutStart (lower : List Char) : Bool :=
  ["note:", "warning:", "tip:", "important:", "caution:", "info:"].any
    (fun w => isPreEx w.data lower)

/-- Scanner for `hasUrlToken`: a leading word boundary before the
`http`/`https` alternative, and nothing after the `://` (the JS
pattern has no trailing boundary). -/
def occursUrlF : Option Char → List Char → Bool
  | _, [] => false
  | prev, c :: r =>
    ((isPreEx "http://".data (c :: r) || isPreEx "https://".data (c :: r)) &&
      (match prev with | Option.none => true | some p => !isWordChar p)) ||
    occursUrlF (some c) r

/-- `/\b(http|https):\/\//` occurrence (boundary only before the
scheme). -/
def hasUrlToken (t : List Char) : Bool := occursUrlF Option.none t

/-- `text.split(' ').length`: one more than the number of single-space
characters. -/
def spaceSplitCount (t : List Char) : Nat := (t.filter (· == ' ')).length + 1

/-- `detectType` of `semantic-chunks.js`. -/
def detectType (text : String) (m : TypeMeta) : String :=
  let t := text.data
  let lower := trimL (lowerL t)
  if m.isCode || codeStart t then "code"
  else if isHeadTag m.tag then "heading"
  else if m.tag == some "li" || bulletStart lower then "list-item"
  else if calloutStart lower then "callout"
  else if m.tag == some "td" || m.tag == some "th" then "table-cell"
  else if decide (t.length < 50) && m.standalone then "label"
  else if hasUrlToken t && decide (spaceSplitCount t < 5) then "link"
  else "paragraph"

/-- Scanner for `splitSentences`: split on `/(?<=[.!?])\s+(?=[A-Z])/`
(a whitespace run preceded by `.` `!` `?` and followed by an
uppercase letter; the run is the separator). -/
def splitSentF : Nat → List Char → Option Char → List Char → List (List Char)
  | 0, cur, _, _ => [cur.reverse]
  | _, cur, _, [] => [cur.reverse]
  | Nat.succ f, cur, prev, c :: r =>
    if isWsChar c && (prev == some '.' || prev == some '!' || prev == some '?') then
      let run := (c :: r).takeWhile isWsChar
      let rest := (c :: r).drop run.length
      match rest with
      | d :: _ =>
        if d.isUpper then cur.reverse :: splitSentF f [] (some ' ') rest
        else splitSentF f (c :: cur) (some c) r
      | [] => splitSentF f (c :: cur) (some c) r
    else splitSentF f (c :: cur) (some c) r

/-- `splitSentences` of `semantic-chunks.js`: split, trim, keep pieces
longer than 10 characters. -/
def splitSentences (t : List Char) : List (List Char) :=
  ((splitSentF t.length [] none t).map trimL).filter (fun s => decide (10 < s.length))

/-- Count of `/https?:\/\//g` matches. -/
def countHttpF : Nat → List Char → Nat
  | 0, _ => 0
  | _, [] => 0
  | Nat.succ f, c :: r =>
    if isPreEx "https://".data (c :: r) then 1 + countHttpF f (List.drop 7 r)
    else if isPreEx "http://".data (c :: r) then 1 + countHttpF f (List.drop 6 r)
    else countHttpF f r

/-- Count of `http(s)://` link tokens in a paragraph. -/
def countHttp (s : List Char) : Nat := countHttpF s.length s

/-- JSON serialization of the stats record, with keys in the
insertion order of `parseHTML` (`JSON.stringify(page.stats)`). -/
def jsonStats (st : PageStats) : String :=
  "\x7b\x22headingCount\x22:" ++ toString st.headingCount ++
  ",\x22linkCount\x22:" ++ toString st.linkCount ++
  ",\x22formCount\x22:" ++ toString st.formCount ++
  ",\x22imageCount\x22:" ++ toString st.imageCount ++
  ",\x22tableCount\x22:" ++ toString st.tableCount ++
  ",\x22textLength\x22:" ++ toString st.textLength ++ "\x7d"

/-- Text of the summary chunk (chunk 0): title, meta description, URL
and stats lines, JS-truthy ones only, joined by newlines. -/
def summaryText (page : Page) : String :=
  String.intercalate "\n" ([
    (match page.title with
     | some t => if t == "" then none else some ("Title: " ++ t)
     | none => none),
    (match objGet page.meta "description" with
     | some d => if d == "" then none else some ("Description: " ++ d)
     | none => none),
    (if page.url == "" then none else some ("URL: " ++ page.url)),
    some ("Stats: " ++ jsonStats page.stats)
  ].filterMap id)

/-- `'  '.repeat(n)` etc. -/
def repeatStr (s : String) (n : Nat) : String := String.join (List.replicate n s)

/-- Text of the TOC chunk: an indented outline of the headings. -/
def tocText (hs : List Heading) : String :=
  "Page structure:\n" ++ String.intercalate "\n"
    (hs.map (fun h =>
      repeatStr "  " (h.level - 1) ++ (if h.level == 1 then "" else "→ ") ++ h.text))

/-- A double-quoted string piece (JS template `"${v}"`). -/
def qstr (s : String) : String := String.mk [dq] ++ s ++ String.mk [dq]

/-- Per-field line of a form chunk (the JS template keeps its interior
spaces even when the optional parts are empty). -/
def fieldDesc : Field → String
  | Field.input ty name ph req =>
    "input[" ++ (if ty == "" then "input" else ty) ++ "] name=" ++
      qstr (name.getD "") ++ " " ++
      (match ph with
       | some p => if p == "" then "" else "placeholder=" ++ qstr p
       | none => "") ++ " " ++
      (if req then "(required)" else "")
  | Field.textarea name ph req =>
    "textarea[textarea] name=" ++ qstr (name.getD "") ++ " " ++
      (match ph with
       | some p => if p == "" then "" else "placeholder=" ++ qstr p
       | none => "") ++ " " ++
      (if req then "(required)" else "")
  | Field.select name _ =>
    "select[select] name=" ++ qstr (name.getD "") ++ " " ++ " "

/-- One form chunk (score 7). -/
def formChunk (id : Nat) (form : Form) : Chunk :=
  { id := id, type := "form", sect := none,
    text := "Form: " ++ form.method ++ " " ++
      (match form.action with
       | some a => if a == "" then "(self)" else a
       | none => "(self)") ++
      "\n  " ++ String.intercalate "\n  " (form.fields.map fieldDesc),
    score := 7, meta := { form := some form } }

/-- The navigation words excluded from the links chunk
(`/^(home|menu|back|next|prev|more|see all)/i`). -/
def navLinkWords : List String :=
  ["home", "menu", "back", "next", "prev", "more", "see all"]

/-- Link-text navigation-start test. -/
def navLinkStart (t : List Char) : Bool :=
  navLinkWords.any (fun w => isPreCI w.data t)

/-- The notable links of the links chunk: text present, length in
`(3, 80)`, not navigation-starting, first 20. -/
def importantLinksOf (links : List Link) : List Link :=
  ((links.filter (fun l =>
      !(l.text == "") && decide (3 < l.text.length) && decide (l.text.length < 80))).filter
    (fun l => !navLinkStart l.text.data)).take 20

/-- The links chunk (score 3). -/
def linksChunk (id : Nat) (ls : List Link) : Chunk :=
  { id := id, type := "links", sect := none,
    text := "Notable links:\n" ++ String.intercalate "\n"
      (ls.map (fun l => "• " ++ l.text ++ " → " ++ l.href)),
    score := 3, meta := { linkCount := some ls.length } }

/-- State of the paragraph loop of `chunkPage`. -/
structure ParaState where
  chunks : List Chunk
  nextId : Nat
  currentSection : Option String
deriving Repr, DecidableEq

/-- State of the sentence-accumulation loop for oversized
paragraphs. -/
structure SentState where
  chunks : List Chunk
  nextId : Nat
  current : List Char
  sentIdx : Nat
deriving Repr, DecidableEq

/-- One step of the sentence-accumulation loop of `chunkPage`. -/
def sentStep (sect : Option String) (score minScore : Int) (maxSize : Nat)
    (st : SentState) (sentence : List Char) : SentState :=
  if decide (maxSize < st.current.length + 1 + sentence.length) && !(st.current == []) then
    let c : Chunk :=
      { id := st.nextId, type := detectType ⟨st.current⟩ ({} : TypeMeta),
        sect := sect, text := ⟨trimL st.current⟩, score := score,
        meta := { partFlag := true, part := some st.sentIdx } }
    let st1 :=
      if minScore ≤ score then
        { st with chunks := st.chunks ++ [c], nextId := st.nextId + 1 }
      else st
    { st1 with current := sentence, sentIdx := st1.sentIdx + 1 }
  else
    { st with current := if st.current == [] then sentence else st.current ++ ' ' :: sentence }

/-- One step of the paragraph loop of `chunkPage`: heading-prefix
skip (the JS tests `paraLower === h || paraLower.startsWith(h)`),
link-density drop, scoring, emission (with sentence splitting for
oversized paragraphs). -/
def paraStep (headings : List Heading) (headTexts : List (List Char))
    (maxSize : Nat) (minScore : Int) (includeNav : Bool)
    (st : ParaState) (para : List Char) : ParaState :=
  let paraLower := trimL (lowerL para)
  match headTexts.findIdx? (fun h => paraLower == h || isPreEx h paraLower) with
  | some i => { st with currentSection := (headings.get? i).map (fun h => h.text) }
  | none =>
    let wordCount := (jsSplitWs para).length
    let linkNum := countHttp para
    let score := scoreBlock ⟨para⟩
      { linkNum := linkNum, wordCount := wordCount,
        underHeading :=
          match st.currentSection with
          | some t => !(t == "")
          | none => false }
    if !includeNav && ldGt linkNum wordCount 1 2 then st
    else if decide (maxSize < para.length) then
      let sres := (splitSentences para).foldl
        (sentStep st.currentSection score minScore maxSize)
        { chunks := st.chunks, nextId := st.nextId, current := [], sentIdx := 0 }
      let ctail : Chunk :=
        { id := sres.nextId, type := detectType ⟨sres.current⟩ ({} : TypeMeta),
          sect := st.currentSection, text := ⟨trimL sres.current⟩, score := score,
          meta := { partFlag := true, part := some sres.sentIdx } }
      let final :=
        if !(trimL sres.current == []) && decide (minScore ≤ score) then
          { sres with chunks := sres.chunks ++ [ctail], nextId := sres.nextId + 1 }
        else sres
      { chunks := final.chunks, nextId := final.nextId,
        currentSection := st.currentSection }
    else if minScore ≤ score then
      let c : Chunk :=
        { id := st.nextId, type := detectType ⟨para⟩ ({} : TypeMeta),
          sect := st.currentSection, text := ⟨para⟩, score := score, meta := {} }
      { chunks := st.chunks ++ [c], nextId := st.nextId + 1,
        currentSection := st.currentSection }
    else st

/-- Chunk comparator: the JS `|>.sort((a, b) => b.score - a.score)`
(stable, descending by score). -/
def chunkLe (a b : Chunk) : Bool := decide (b.score ≤ a.score)

/-- `chunkPage` of `semantic-chunks.js`: summary chunk, TOC chunk,
paragraph chunks, form chunks, links chunk, sorted by score
descending (stably). -/
def chunkPage (page : Page) (opts : ChunkOpts) : List Chunk :=
  let maxSize := match opts.maxChunkSize with
    | some n => if n == 0 then 800 else n
    | none => 800
  let minScore := opts.minScore.getD (-1)
  let c0 : Chunk :=
    { id := 0, type := "summary", sect := none,
      text := summaryText page, score := 10, meta := { isSummary := true } }
  let ctoc : Chunk :=
    { id := 1, type := "toc", sect := none, text := tocText page.headings,
      score := 5, meta := { isNav := true } }
  let start : List Chunk × Nat :=
    if 0 < page.headings.length then ([c0, ctoc], 2) else ([c0], 1)
  let paragraphs := ((splitBlank page.textContent.data).map trimL).filter
    (fun p => decide (0 < p.length))
  let headTexts := page.headings.map (fun h => trimL (lowerL h.text.data))
  let stP := paragraphs.foldl
    (paraStep page.headings headTexts maxSize minScore opts.includeNav)
    { chunks := start.1, nextId := start.2, currentSection := none }
  let withForms := page.forms.foldl
    (fun (acc : List Chunk × Nat) form => (acc.1 ++ [formChunk acc.2 form], acc.2 + 1))
    (stP.chunks, stP.nextId)
  let important := importantLinksOf page.links
  let chunksL :=
    if 0 < important.length then withForms.1 ++ [linksChunk withForms.2 important]
    else withForms.1
  sortS chunkLe chunksL

theorem sentStep_chunks (sect : Option String) (score minScore : Int) (maxSize : Nat)
    (st : SentState) (sentence : List Char) :
    ∀ c ∈ (sentStep sect score minScore maxSize st sentence).chunks,
      c ∈ st.chunks ∨ c.sect = sect := by
  intro c hc
  simp only [sentStep] at hc
  split at hc
  · split at hc
    · simp only [List.mem_append, List.mem_singleton] at hc
      rcases hc with hc | rfl
      · exact Or.inl hc
      · exact Or.inr rfl
    · exact Or.inl hc
  · exact Or.inl hc

theorem sentFold_chunks (sect : Option String) (score minScore : Int) (maxSize : Nat)
    (sentences : List (List Char)) :
    ∀ (init : SentState) (c : Chunk),
      c ∈ (sentences.foldl (sentStep sect score minScore maxSize) init).chunks →
      c ∈ init.chunks ∨ c.sect = sect := by
  induction sentences with
  | nil => intro init c hc; exact Or.inl hc
  | cons s ss ih =>
    intro init c hc
    rcases ih (sentStep sect score minScore maxSize init s) c hc with h | h
    · exact sentStep_chunks sect score minScore maxSize init s c h
    · exact Or.inr h

theorem paraStep_headingMatch (headings : List Heading) (headTexts : List (List Char))
    (maxSize : Nat) (minScore : Int) (includeNav : Bool) (st : ParaState)
    (para : List Char) (i : Nat)
    (h : headTexts.findIdx?
        (fun ht => trimL (lowerL para) == ht || isPreEx ht (trimL (lowerL para))) = some i) :
    paraStep headings headTexts maxSize minScore includeNav st para
      = { st with currentSection := (headings.get? i).map (fun hh => hh.text) } := by
  simp only [paraStep, h]

theorem paraStep_noMatch (headings : List Heading) (headTexts : List (List Char))
    (maxSize : Nat) (minScore : Int) (includeNav : Bool) (st : ParaState)
    (para : List Char)
    (h : headTexts.findIdx?
        (fun ht => trimL (lowerL para) == ht || isPreEx ht (trimL (lowerL para))) = none) :
    (paraStep headings headTexts maxSize minScore includeNav st para).currentSection
        = st.currentSection ∧
    ∀ c ∈ (paraStep headings headTexts maxSize minScore includeNav st para).chunks,
      c ∈ st.chunks ∨ c.sect = st.currentSection := by
  simp only [paraStep, h]
  constructor
  · split
    · rfl
    · split
      · rfl
      · split
        · rfl
        · rfl
  · intro c hc
    split at hc
    · exact Or.inl hc
    · split at hc
      · simp only at hc
        split at hc
        · simp only [List.mem_append, List.mem_singleton] at hc
          rcases hc with hc | rfl
          · exact sentFold_chunks st.currentSection _ _ _ _ _ c hc
          · exact Or.inr rfl
        · exact sentFold_chunks st.currentSection _ _ _ _ _ c hc
      · split at hc
        · simp only [List.mem_append, List.mem_singleton] at hc
          rcases hc with hc | rfl
          · exact Or.inl hc
          · exact Or.inr rfl
        · exact Or.inl hc

/-- Claim C8, counterexample.  The claim states that a paragraph which
equals or is a prefix of a known heading text is skipped (no chunk is
emitted for it) and that `currentSection` is updated to that heading.
The source tests the opposite direction (`paraLower.startsWith(h)`: the
heading must be a prefix of the paragraph).  On a page whose heading is
`Installation guide for absolute beginners step by step` and whose
first paragraph is the proper prefix `Installation guide for absolute`,
the paragraph is a prefix of the heading, yet `chunkPage` emits a chunk
for it, and the following paragraph's chunk carries no section. -/
theorem C8_counterexample :
    let page : Page :=
      { url := "https://docs.example/", title := some "Docs", meta := [],
        headings := [⟨1, "Installation guide for absolute beginners step by step"⟩],
        links := [], forms := [], images := [],
        textContent :=
          "Installation guide for absolute\n\nAnother body paragraph follows here with words.",
        tables := [], stats := ⟨1, 0, 0, 0, 0, 81⟩ }
    isPreEx (trimL (lowerL "Installation guide for absolute".data))
        (trimL (lowerL "Installation guide for absolute beginners step by step".data))
      = true ∧
    ((chunkPage page {}).filter
        (fun c => c.text == "Installation guide for absolute")).length = 1 ∧
    (chunkPage page {}).any
        (fun c => c.text == "Another body paragraph follows here with words." &&
          c.sect == (none : Option String)) = true ∧
    (chunkPage page {}).any
        (fun c => c.text == "Another body paragraph follows here with words." &&
          c.sect == some "Installation guide for absolute beginners step by step")
      = false := by
  exact ⟨by decide, by decide, by decide, by decide⟩

/-- Claim C8, amended.  In `chunkPage`'s paragraph loop: a paragraph
for which some known heading text (lowercased, trimmed) equals the
lowercased paragraph or is a prefix of it is skipped — the step emits
no chunk and sets `currentSection` to the first such heading's text —
and a paragraph with no such heading match leaves `currentSection`
unchanged and only emits chunks whose `section` is the current
section, so subsequent paragraph chunks carry the last matched
heading. -/
theorem C8_amended (headings : List Heading) (headTexts : List (List Char))
    (maxSize : Nat) (minScore : Int) (includeNav : Bool) (st : ParaState)
    (para : List Char) :
    (∀ i, headTexts.findIdx?
        (fun ht => trimL (lowerL para) == ht || isPreEx ht (trimL (lowerL para))) = some i →
      paraStep headings headTexts maxSize minScore includeNav st para
        = { st with currentSection := (headings.get? i).map (fun hh => hh.text) }) ∧
    (headTexts.findIdx?
        (fun ht => trimL (lowerL para) == ht || isPreEx ht (trimL (lowerL para))) = none →
      (paraStep headings headTexts maxSize minScore includeNav st para).currentSection
          = st.currentSection ∧
      ∀ c ∈ (paraStep headings headTexts maxSize minScore includeNav st para).chunks,
        c ∈ st.chunks ∨ c.sect = st.currentSection) :=
  ⟨fun i h => paraStep_headingMatch headings headTexts maxSize minScore includeNav st para i h,
   fun h => paraStep_noMatch headings headTexts maxSize minScore includeNav st para h⟩

/-- Claim C8, witness: the amended theorem applied to concrete
paragraphs — a heading-prefixed paragraph updates the section and
emits nothing; an ordinary paragraph leaves the section unchanged. -/
theorem C8_witness :
    (paraStep [⟨1, "Intro"⟩] ["intro".data] 800 (-1) false
        ⟨[], 5, none⟩ "Intro to things".data
      = { chunks := [], nextId := 5, currentSection := some "Intro" }) ∧
    ((paraStep [⟨1, "Intro"⟩] ["intro".data] 800 (-1) false
        ⟨[], 5, some "Intro"⟩ "A body paragraph about real things.".data).currentSection
      = some "Intro") := by
  constructor
  · exact (C8_amended [⟨1, "Intro"⟩] ["intro".data] 800 (-1) false
      ⟨[], 5, none⟩ "Intro to things".data).1 0 (by decide)
  · exact ((C8_amended [⟨1, "Intro"⟩] ["intro".data] 800 (-1) false
      ⟨[], 5, some "Intro"⟩ "A body paragraph about real things.".data).2 (by decide)).1

/-! ### Query ranking (`findRelevant` of `semantic-chunks.js`)

`findRelevant` compiles each kept query token with `new RegExp(word)`,
which throws a `SyntaxError` on an invalid pattern; the validity of a
pattern is modelled by `reValid` below, and the per-token global match
count by the literal occurrence count `countOcc` (faithful for
metacharacter-free tokens, the only regime the theorems use). -/

/-- A chunk annotated with its query relevance (the JS spread
`{ ...chunk, relevance }`). -/
structure RankedChunk extends Chunk where
  relevance : Int
deriving Repr, DecidableEq

/-- Parse a `{n}` / `{n,}` / `{n,m}` quantifier body after an opening
brace; return the rest after `}` on success. -/
def reQuant (r : List Char) : Option (List Char) :=
  let ds := r.takeWhile Char.isDigit
  if ds.isEmpty then none
  else
    match r.drop ds.length with
    | '}' :: rest => some rest
    | ',' :: r2 =>
      let ds2 := r2.takeWhile Char.isDigit
      match r2.drop ds2.length with
      | '}' :: rest => some rest
      | _ => none
    | _ => none

/-- Scan a character-class body up to the closing `]`, honouring
backslash escapes; return the rest. -/
def classEnd : Nat → List Char → Option (List Char)
  | 0, _ => none
  | _, [] => none
  | Nat.succ f, c :: r =>
    if c == ']' then some r
    else if c == '\\' then
      match r with
      | _ :: r2 => classEnd f r2
      | [] => none
    else classEnd f r

/-- Modelled platform primitive: validity of an ECMAScript RegExp
pattern (`new RegExp(w)` throws a `SyntaxError` exactly when the
pattern is invalid).  The model covers the fragment relevant here:
literal characters, `.`: atoms; `\c` escapes: atoms; `[...]` classes:
atoms (unterminated class is invalid); `(`/`)` groups (with the
`?:` `?=` `?!` `?<=` `?<!` prefixes) must balance; `|` alternation;
`^` `$` assertions; the quantifiers `*` `+` `?` and well-formed `{n,m}`
require a preceding atom ("nothing to repeat"), with one `?` lazy
marker allowed after a quantifier; a brace not opening a well-formed
quantifier is a literal (Annex-B web compatibility).  The state
`prev` is 0 after a position that cannot be quantified, 1 after an
atom, 2 after a quantifier, 3 after a lazy-marked quantifier. -/
def reValidF : Nat → Nat → Nat → List Char → Bool
  | _, depth, _, [] => depth == 0
  | 0, _, _, _ :: _ => false
  | Nat.succ f, depth, prev, c :: r =>
    if c == '*' || c == '+' then
      (prev == 1) && reValidF f depth 2 r
    else if c == '?' then
      (prev == 1 || prev == 2) && reValidF f depth (if prev == 1 then 2 else 3) r
    else if c == '\\' then
      match r with
      | _ :: r2 => reValidF f depth 1 r2
      | [] => false
    else if c == '[' then
      match classEnd r.length r with
      | some rest => reValidF f depth 1 rest
      | none => false
    else if c == '(' then
      if isPreEx "?:".data r || isPreEx "?=".data r || isPreEx "?!".data r then
        reValidF f (depth + 1) 0 (r.drop 2)
      else if isPreEx "?<=".data r || isPreEx "?<!".data r then
        reValidF f (depth + 1) 0 (r.drop 3)
      else reValidF f (depth + 1) 0 r
    else if c == ')' then
      decide (0 < depth) && reValidF f (depth - 1) 1 r
    else if c == '|' then
      reValidF f depth 0 r
    else if c == '^' || c == '$' then
      reValidF f depth 0 r
    else if c == '{' then
      match reQuant r with
      | some rest => (prev == 1) && reValidF f depth 2 rest
      | none => reValidF f depth 1 r
    else reValidF f depth 1 r

/-- RegExp pattern validity (see `reValidF`). -/
def reValid (w : List Char) : Bool := reValidF w.length 0 0 w

/-- The kept query tokens: lowercase the query, split on whitespace,
keep tokens of length greater than 2. -/
def queryTokens (query : String) : List (List Char) :=
  (jsSplitWs (lowerL query.data)).filter (fun w => decide (2 < w.length))

/-- Total count of kept-token occurrences in `text`,
case-insensitively. -/
def totalOcc (query : String) (text : String) : Nat :=
  ((queryTokens query).map (fun w => countOcc w (lowerL text.data))).sum

/-- Is `c` one of the ECMAScript pattern metacharacters
`\ ^ $ . * + ? ( ) [ ] { } |`?  A pattern containing none of these is
a literal: it matches exactly its own character sequence. -/
def isMetaChar (c : Char) : Bool :=
  c == '\\' || c == '^' || c == '$' || c == '.' || c == '*' || c == '+' ||
  c == '?' || c == '(' || c == ')' || c == '[' || c == ']' ||
  c == '{' || c == '}' || c == '|'

/-- A metacharacter-free (literal) pattern. -/
def isLiteralPat (w : List Char) : Bool := w.all (fun c => !isMetaChar c)

/-- Modelled platform primitive: the JS global match count
`(text.match(new RegExp(w, "g")) || []).length` for a pattern that
passed compilation.  For a literal pattern (`isLiteralPat`, no
metacharacters) the ECMAScript global count is exactly the leftmost
non-overlapping occurrence count, which this returns.  For valid
non-literal patterns the engine's count is outside the model; the
theorems that evaluate this function therefore restrict their domain
to literal tokens via `isLiteralPat`. -/
def regexCountG (w text : List Char) : Nat := countOcc w text

/-- The per-chunk token loop of `findRelevant`: starting from the
chunk score, add twice the global match count of each token;
compiling an invalid token throws. -/
def relFold (tl : List Char) : Int → List (List Char) → Except String Int
  | rel, [] => Except.ok rel
  | rel, w :: ws =>
    if reValid w then relFold tl (rel + 2 * (regexCountG w tl : Int)) ws
    else Except.error "SyntaxError: Invalid regular expression"

/-- Annotate one chunk with its relevance. -/
def chunkRel (queryWords : List (List Char)) (c : Chunk) : Except String RankedChunk :=
  match relFold (lowerL c.text.data) c.score queryWords with
  | Except.ok rel => Except.ok { toChunk := c, relevance := rel }
  | Except.error e => Except.error e

/-- The `chunks.map(...)` of `findRelevant` (the first invalid token
of the first chunk throws). -/
def mapRel (qws : List (List Char)) : List Chunk → Except String (List RankedChunk)
  | [] => Except.ok []
  | c :: cs =>
    match chunkRel qws c with
    | Except.ok rc =>
      match mapRel qws cs with
      | Except.ok rest => Except.ok (rc :: rest)
      | Except.error e => Except.error e
    | Except.error e => Except.error e

/-- Ranked-chunk comparator: `(a, b) => b.relevance - a.relevance`
(stable, descending by relevance). -/
def rankedLe (a b : RankedChunk) : Bool := decide (b.relevance ≤ a.relevance)

/-- `findRelevant` of `semantic-chunks.js`: tokenize, annotate each
chunk with `relevance`, sort descending, take the first `limit`. -/
def findRelevant (chunks : List Chunk) (query : String) (limit : Nat) :
    Except String (List RankedChunk) :=
  match mapRel (queryTokens query) chunks with
  | Except.ok scored => Except.ok ((sortS rankedLe scored).take limit)
  | Except.error e => Except.error e

theorem relFold_ok (tl : List Char) (ws : List (List Char)) (init v : Int)
    (h : relFold tl init ws = Except.ok v) :
    v = init + 2 * (((ws.map (fun w => countOcc w tl)).sum : Nat) : Int) := by
  induction ws generalizing init with
  | nil =>
    simp only [relFold] at h
    cases h
    simp
  | cons w ws ih =>
    simp only [relFold] at h
    split at h
    · have hv := ih _ h
      rw [hv]
      simp only [List.map_cons, List.sum_cons, Nat.cast_add, regexCountG]
      ring
    · cases h

theorem chunkRel_ok (qws : List (List Char)) (c : Chunk) (rc : RankedChunk)
    (h : chunkRel qws c = Except.ok rc) :
    rc.toChunk = c ∧
    rc.relevance = c.score +
      2 * (((qws.map (fun w => countOcc w (lowerL c.text.data))).sum : Nat) : Int) := by
  unfold chunkRel at h
  split at h
  case h_1 rel heq =>
    cases h
    exact ⟨rfl, relFold_ok _ _ _ _ heq⟩
  case h_2 e heq => cases h

theorem mapRel_ok (qws : List (List Char)) :
    ∀ (l : List Chunk) (out : List RankedChunk), mapRel qws l = Except.ok out →
      out.length = l.length ∧ ∀ rc ∈ out, ∃ c ∈ l, chunkRel qws c = Except.ok rc := by
  intro l
  induction l with
  | nil =>
    intro out h
    simp only [mapRel] at h
    cases h
    simp
  | cons c cs ih =>
    intro out h
    simp only [mapRel] at h
    split at h
    case h_1 rc heq =>
      split at h
      case h_1 rest heq2 =>
        cases h
        rcases ih rest heq2 with ⟨hlen, hall⟩
        constructor
        · simp [hlen]
        · intro x hx
          rcases List.mem_cons.mp hx with rfl | hx
          · exact ⟨c, List.mem_cons_self c cs, heq⟩
          · rcases hall x hx with ⟨c', hc', he'⟩
            exact ⟨c', List.mem_cons_of_mem c hc', he'⟩
      case h_2 e heq2 => cases h
    case h_2 e heq => cases h

theorem rankedLe_total : ∀ a b : RankedChunk, rankedLe a b = true ∨ rankedLe b a = true := by
  intro a b
  unfold rankedLe
  rcases le_total b.relevance a.relevance with h | h
  · exact Or.inl (by simpa using h)
  · exact Or.inr (by simpa using h)

theorem rankedLe_trans :
    ∀ a b c : RankedChunk, rankedLe a b = true → rankedLe b c = true → rankedLe a c = true := by
  intro a b c hab hbc
  unfold rankedLe at hab hbc ⊢
  simp only [decide_eq_true_eq] at hab hbc ⊢
  exact le_trans hbc hab

theorem reValidF_literal :
    ∀ (w : List Char) (fuel depth prev : Nat),
      isLiteralPat w = true → w.length ≤ fuel →
      reValidF fuel depth prev w = (depth == 0) := by
  intro w
  induction w with
  | nil =>
    intro fuel depth prev _ _
    cases fuel <;> rfl
  | cons c r ih =>
    intro fuel depth prev hlit hlen
    cases fuel with
    | zero => simp at hlen
    | succ f =>
      have hc : isMetaChar c = false := by
        have h0 := hlit
        simp only [isLiteralPat, List.all_cons, Bool.and_eq_true,
          Bool.not_eq_true'] at h0
        exact h0.1
      have hr : isLiteralPat r = true := by
        simp only [isLiteralPat, List.all_cons, Bool.and_eq_true] at hlit
        simpa [isLiteralPat] using hlit.2
      have hcases : (c == '*') = false ∧ (c == '+') = false ∧ (c == '?') = false ∧
          (c == '\\') = false ∧ (c == '[') = false ∧ (c == '(') = false ∧
          (c == ')') = false ∧ (c == '|') = false ∧ (c == '^') = false ∧
          (c == '$') = false ∧ (c == '{') = false := by
        simp only [isMetaChar, Bool.or_eq_false_iff] at hc
        tauto
      rcases hcases with ⟨h1, h2, h3, h4, h5, h6, h7, h8, h9, h10, h11⟩
      have hlen2 : r.length ≤ f := by
        simp only [List.length_cons] at hlen
        omega
      simp only [reValidF, h1, h2, h3, h4, h5, h6, h7, h8, h9, h10, h11,
        Bool.or_self, Bool.false_or, Bool.or_false, Bool.false_eq_true,
        if_false]
      exact ih f depth 1 hr hlen2

theorem reValid_of_literal (w : List Char) (h : isLiteralPat w = true) :
    reValid w = true := by
  unfold reValid
  rw [reValidF_literal w w.length 0 0 h (le_refl _)]
  rfl

theorem relFold_total (tl : List Char) (ws : List (List Char))
    (h : ∀ w ∈ ws, isLiteralPat w = true) (init : Int) :
    relFold tl init ws
      = Except.ok (init + 2 * (((ws.map (fun w => countOcc w tl)).sum : Nat) : Int)) := by
  induction ws generalizing init with
  | nil => simp [relFold]
  | cons w ws ih =>
    have hv : reValid w = true :=
      reValid_of_literal w (h w (List.mem_cons_self w ws))
    simp only [relFold]
    rw [if_pos hv, ih (fun x hx => h x (List.mem_cons_of_mem w hx))]
    congr 1
    simp only [List.map_cons, List.sum_cons, Nat.cast_add, regexCountG]
    ring

theorem chunkRel_total (qws : List (List Char)) (c : Chunk)
    (h : ∀ w ∈ qws, isLiteralPat w = true) :
    chunkRel qws c = Except.ok
      { toChunk := c,
        relevance := c.score +
          2 * (((qws.map (fun w => countOcc w (lowerL c.text.data))).sum : Nat) : Int) } := by
  unfold chunkRel
  rw [relFold_total (lowerL c.text.data) qws h c.score]

theorem mapRel_total (qws : List (List Char)) (h : ∀ w ∈ qws, isLiteralPat w = true) :
    ∀ l : List Chunk, ∃ out, mapRel qws l = Except.ok out := by
  intro l
  induction l with
  | nil => exact ⟨[], rfl⟩
  | cons c cs ih =>
    rcases ih with ⟨rest, hrest⟩
    refine ⟨{ toChunk := c,
              relevance := c.score +
                2 * (((qws.map (fun w => countOcc w (lowerL c.text.data))).sum : Nat) : Int) }
            :: rest, ?_⟩
    simp only [mapRel, chunkRel_total qws c h, hrest]

/-- Claim C6, counterexample.  The claim quantifies over every query;
for the query `learn c++` the kept token `c++` does not compile as a
regex, so `findRelevant` throws instead of returning the ranked
list. -/
theorem C6_counterexample :
    findRelevant
      [{ id := 0, type := "paragraph", sect := none,
         text := "We compare languages in this post.", score := 2, meta := {} }]
      "learn c++" 5
      = Except.error "SyntaxError: Invalid regular expression" := by rfl

/-- Claim C6, amended.  For every chunk list and limit, and every
query all of whose kept tokens — lowercased whitespace tokens of
length above 2 — are free of regex metacharacters (so each compiles,
and its global match count is its literal occurrence count):
`findRelevant` returns; each returned chunk carries
`relevance = score + 2 × (total count of token occurrences in its
text, case-insensitively)`; the output is sorted by relevance
descending; it consists of the first `limit` of the sorted chunks;
and consequently, among returned chunks of identical score, a chunk
with more token occurrences never ranks below one with fewer.
(Queries with a kept token that does not compile throw instead, per
the counterexample; valid non-literal tokens such as `a.c` are
outside the model of the match count and not claimed.) -/
theorem C6_amended (chunks : List Chunk) (query : String) (limit : Nat)
    (htok : ∀ w ∈ queryTokens query, isLiteralPat w = true) :
    ∃ out, findRelevant chunks query limit = Except.ok out ∧
    (∀ rc ∈ out, rc.relevance
        = rc.toChunk.score + 2 * ((totalOcc query rc.toChunk.text : Nat) : Int)) ∧
    out.Pairwise (fun a b => b.relevance ≤ a.relevance) ∧
    out.length = min limit chunks.length ∧
    (∀ i j (hi : i < out.length) (hj : j < out.length), i ≤ j →
      (out.get ⟨i, hi⟩).toChunk.score = (out.get ⟨j, hj⟩).toChunk.score →
      totalOcc query (out.get ⟨j, hj⟩).toChunk.text
        ≤ totalOcc query (out.get ⟨i, hi⟩).toChunk.text) := by
  rcases mapRel_total (queryTokens query) htok chunks with ⟨scored, heq⟩
  rcases mapRel_ok (queryTokens query) chunks scored heq with ⟨hlen, hall⟩
  have hmemf : ∀ rc ∈ (sortS rankedLe scored).take limit,
      rc.relevance = rc.toChunk.score + 2 * ((totalOcc query rc.toChunk.text : Nat) : Int) := by
    intro rc hrc
    have hrc2 : rc ∈ sortS rankedLe scored := List.take_subset _ _ hrc
    have hrc3 : rc ∈ scored := (mem_sortS rankedLe rc scored).mp hrc2
    rcases hall rc hrc3 with ⟨c, _, hce⟩
    rcases chunkRel_ok _ c rc hce with ⟨htc, hrel⟩
    rw [hrel, htc]
    rfl
  have hpw : ((sortS rankedLe scored).take limit).Pairwise
      (fun a b => b.relevance ≤ a.relevance) := by
    have h1 := pairwise_sortS rankedLe rankedLe_total rankedLe_trans scored
    have h2 : ((sortS rankedLe scored).take limit).Pairwise
        (fun a b => rankedLe a b = true) :=
      h1.sublist (List.take_sublist limit (sortS rankedLe scored))
    exact h2.imp (fun h => by simpa [rankedLe] using h)
  refine ⟨(sortS rankedLe scored).take limit, ?_, hmemf, hpw, ?_, ?_⟩
  · unfold findRelevant
    rw [heq]
  · rw [List.length_take, length_sortS, hlen]
  · intro i j hi hj hij hsc
    have hfi := hmemf _ (List.get_mem _ i hi)
    have hfj := hmemf _ (List.get_mem _ j hj)
    rcases Nat.lt_or_ge i j with hlt | hge
    · have hrel := (List.pairwise_iff_get.mp hpw) ⟨i, hi⟩ ⟨j, hj⟩ hlt
      rw [hfi, hfj, hsc] at hrel
      have : ((totalOcc query
          ((((sortS rankedLe scored).take limit).get ⟨j, hj⟩)).toChunk.text : Nat) : Int)
          ≤ ((totalOcc query
          ((((sortS rankedLe scored).take limit).get ⟨i, hi⟩)).toChunk.text : Nat) : Int) := by
        omega
      exact_mod_cast this
    · have : i = j := le_antisymm hij hge
      subst this
      exact le_refl _

/-- Claim C6, witness: the amended theorem applied to two concrete
equal-score chunks and the metacharacter-free query `banana`; the
call returns, and the stated ranking facts hold of its output. -/
theorem C6_witness :
    ∃ out,
      findRelevant
        [{ id := 0, type := "paragraph", sect := none, text := "banana banana",
           score := 1, meta := {} },
         { id := 1, type := "paragraph", sect := none, text := "apple pie",
           score := 1, meta := {} }]
        "banana" 5 = Except.ok out ∧
      (∀ rc ∈ out, rc.relevance
          = rc.toChunk.score + 2 * ((totalOcc "banana" rc.toChunk.text : Nat) : Int)) ∧
      out.Pairwise (fun a b => b.relevance ≤ a.relevance) ∧
      out.length = min 5 2 ∧
      (∀ i j (hi : i < out.length) (hj : j < out.length), i ≤ j →
        (out.get ⟨i, hi⟩).toChunk.score = (out.get ⟨j, hj⟩).toChunk.score →
        totalOcc "banana" (out.get ⟨j, hj⟩).toChunk.text
          ≤ totalOcc "banana" (out.get ⟨i, hi⟩).toChunk.text) :=
  C6_amended
    [{ id := 0, type := "paragraph", sect := none, text := "banana banana",
       score := 1, meta := {} },
     { id := 1, type := "paragraph", sect := none, text := "apple pie",
       score := 1, meta := {} }]
    "banana" 5 (by decide)

/-- Claim C9: `findRelevant` is not total in its query argument — each
kept token is compiled directly as a regular expression, so the kept
length-3 token `c++` (a quantifier following a quantifier: "nothing to
repeat") makes the call throw instead of returning a ranked chunk
list. -/
theorem C9_regex_metachar_throws :
    queryTokens "c++" = ["c++".data] ∧
    reValid "c++".data = false ∧
    findRelevant
      [{ id := 0, type := "paragraph", sect := none,
         text := "Learning resources for programmers.", score := 3, meta := {} }]
      "c++" 3
      = Except.error "SyntaxError: Invalid regular expression" := by
  exact ⟨by decide, by decide, by rfl⟩

/-! ### Lite renderer (`lite-renderer.js`): the regex extractors -/

/-- Scan for the first suffix at which `f` succeeds, returning `f`'s
payload (generic version of `scanFirst`). -/
def scanFirstP {β : Type} (f : List Char → Option β) : List Char → Option β
  | [] => f []
  | c :: r =>
    match f (c :: r) with
    | some b => some b
    | none => scanFirstP f r

/-- Uppercase a string (ASCII, models JS `toUpperCase` for the
characters the sources compare). -/
def upperStr (s : String) : String := ⟨s.data.map Char.toUpper⟩

/-- Lowercase a string (ASCII). -/
def lowerStr (s : String) : String := ⟨lowerL s.data⟩

/-- JS truthiness on an optional string: `null` and the empty string
are falsy. -/
def optTruthy : Option String → Option String
  | some s => if s == "" then none else some s
  | none => none

/-- Match `OPN[^>]*>` at the head (`OPN` lowercased, matched
case-insensitively) and return the rest after the `>`. -/
def openTagEnd (opn : List Char) (s : List Char) : Option (List Char) :=
  match eatCI opn s with
  | some r =>
    match r.findIdx? (· == '>') with
    | some k => some (r.drop (k + 1))
    | none => none
  | none => none

/-- `parseAttrs` of `lite-renderer.js`: scan for
`(\w[\w-]*)=["']([^"']*?)["']` pairs, keys lowercased, later pairs
overwriting earlier ones (fuelled scanner). -/
def parseAttrsF : Nat → List (String × String) → List Char → List (String × String)
  | 0, acc, _ => acc
  | _, acc, [] => acc
  | Nat.succ f, acc, c :: r =>
    if isWordChar c then
      let nmTail := r.takeWhile (fun d => isWordChar d || d == '-')
      let rest := r.drop nmTail.length
      match rest with
      | '=' :: q :: r3 =>
        if q == dq || q == sq then
          let v := r3.takeWhile (fun d => !(d == dq || d == sq))
          match r3.drop v.length with
          | _ :: r5 =>
            parseAttrsF f (objSet acc (lowerStr ⟨c :: nmTail⟩) ⟨v⟩) r5
          | [] => parseAttrsF f acc r
        else parseAttrsF f acc r
      | _ => parseAttrsF f acc r
    else parseAttrsF f acc r

/-- Attribute-list parsing. -/
def parseAttrs (s : List Char) : List (String × String) := parseAttrsF s.length [] s

/-- `extract` for the title: first match of
`/<title[^>]*>([\s\S]*?)<\/title>/i`, trimmed and entity-decoded. -/
def extractTitle (h : List Char) : Option String :=
  match scanFirstP (fun s => do
      let r ← openTagEnd "<title".data s
      let k ← findCI "</title>".data r
      pure (r.take k)) h with
  | some g => some (decodeEntities ⟨trimL g⟩)
  | none => none

/-- One `<meta\s+([^>]+)>` match at the head: the attribute group and
the rest after the `>`. -/
def metaAt (s : List Char) : Option (List Char × List Char) := do
  let s1 ← eatCI "<meta".data s
  let s2 ← eatWs1 s1
  match s2.findIdx? (· == '>') with
  | some 0 => none
  | some (Nat.succ k) => some (s2.take (k + 1), s2.drop (k + 2))
  | none => none

/-- `extractMeta`: every `<meta …>` whose attributes include a truthy
`name` (or `property`) and a truthy `content`; `name` keys lowercased,
`property` keys preserved (fuelled global scan). -/
def extractMetaF : Nat → List (String × String) → List Char → List (String × String)
  | 0, acc, _ => acc
  | _, acc, [] => acc
  | Nat.succ f, acc, c :: r =>
    match metaAt (c :: r) with
    | some (attrsStr, rest) =>
      let attrs := parseAttrs attrsStr
      let acc1 :=
        match optTruthy (objGet attrs "name"), optTruthy (objGet attrs "content") with
        | some n, some ct => objSet acc (lowerStr n) ct
        | _, _ => acc
      let acc2 :=
        match optTruthy (objGet attrs "property"), optTruthy (objGet attrs "content") with
        | some p, some ct => objSet acc1 p ct
        | _, _ => acc1
      extractMetaF f acc2 rest
    | none => extractMetaF f acc r

/-- Meta extraction. -/
def extractMeta (h : List Char) : List (String × String) := extractMetaF h.length [] h

/-- One `<(h[1-6])[^>]*>([\s\S]*?)<\/\1>` match at the head (the
closing tag carries the same digit): level, stripped text and rest. -/
def headingAt (s : List Char) : Option (Nat × List Char × List Char) :=
  match s with
  | a :: b :: d :: rest =>
    if a == '<' && eqCI 'h' b && isH16 d then
      match rest.findIdx? (· == '>') with
      | some k =>
        let body := rest.drop (k + 1)
        match findCI ['<', '/', 'h', d, '>'] body with
        | some j => some (d.toNat - 48, body.take j, body.drop (j + 5))
        | none => none
      | none => none
    else none
  | _ => none

/-- `extractHeadings` (fuelled global scan; empty stripped texts are
dropped). -/
def extractHeadingsF : Nat → List Heading → List Char → List Heading
  | 0, acc, _ => acc
  | _, acc, [] => acc
  | Nat.succ f, acc, c :: r =>
    match headingAt (c :: r) with
    | some (level, body, rest) =>
      let text := trimL (stripTagsL body)
      if text == [] then extractHeadingsF f acc rest
      else extractHeadingsF f (acc ++ [{ level := level, text := ⟨text⟩ }]) rest
    | none => extractHeadingsF f acc r

/-- Heading extraction. -/
def extractHeadings (h : List Char) : List Heading := extractHeadingsF h.length [] h

/-- Position of the `:` ending a URL scheme (`[A-Za-z][A-Za-z0-9+.-]*:`). -/
def schemeEnd (s : List Char) : Option Nat :=
  match s with
  | c :: r =>
    if c.isAlpha then
      let run := r.takeWhile (fun d => d.isAlphanum || d == '+' || d == '-' || d == '.')
      match r.drop run.length with
      | ':' :: _ => some (1 + run.length)
      | _ => none
    else none
  | [] => none

/-- The base path's directory: everything up to and including the last
slash (or `/` when the path has no slash). -/
def dirOf (p : List Char) : List Char :=
  let d := (p.reverse.dropWhile (fun c => !(c == '/'))).reverse
  if d == [] then ['/'] else d

/-- Modelled platform primitive: WHATWG `new URL(href, base).href` as
used by the extractors, restricted to the shapes the repository
exercises — absolute URLs are returned as given; protocol-relative,
root-relative, fragment/query and plain relative references are
resolved against a base of the shape `scheme://host[/path…]`; dot
segments are not normalized and a base without `://` fails (the JS
constructor throws, which the callers catch and skip). -/
def urlResolve (href base : String) : Option String :=
  let h := href.data
  if (schemeEnd h).isSome then some href
  else
    match schemeEnd base.data with
    | none => none
    | some k =>
      match base.data.drop (k + 1) with
      | '/' :: '/' :: hostRest =>
        let scheme : List Char := base.data.take k
        let host := hostRest.takeWhile (fun c => !(c == '/' || c == '?' || c == '#'))
        let origin : List Char := scheme ++ ':' :: '/' :: '/' :: host
        let path := hostRest.drop host.length
        let p := path.takeWhile (fun c => !(c == '?' || c == '#'))
        if isPreEx "//".data h then some ⟨scheme ++ ':' :: h⟩
        else if h.headD ' ' == '/' then some ⟨origin ++ h⟩
        else if h.headD ' ' == '#' || h.headD ' ' == '?' then some ⟨origin ++ p ++ h⟩
        else some ⟨origin ++ dirOf p ++ h⟩
      | _ => none

/-- One `<a\s+([^>]*?)>([\s\S]*?)<\/a>` match at the head: attribute
group, body and rest. -/
def anchorAt (s : List Char) : Option (List Char × List Char × List Char) := do
  let s1 ← eatCI "<a".data s
  let s2 ← eatWs1 s1
  match s2.findIdx? (· == '>') with
  | some k =>
    let afterOpen := s2.drop (k + 1)
    match findCI "</a>".data afterOpen with
    | some j => some (s2.take k, afterOpen.take j, afterOpen.drop (j + 4))
    | none => none
  | none => none

/-- `extractLinks` (fuelled global scan): skip missing, fragment and
`javascript:` hrefs; absolutize against the base URL (skipping
unresolvable ones); dedupe by resolved URL (the URL is consumed even
when the text is empty, exactly as in the source); push texts
truncated to 120 characters. -/
def extractLinksF (baseUrl : String) : Nat → List String → List Link → List Char → List Link
  | 0, _, acc, _ => acc
  | _, _, acc, [] => acc
  | Nat.succ f, seen, acc, c :: r =>
    match anchorAt (c :: r) with
    | some (attrsStr, body, rest) =>
      let attrs := parseAttrs attrsStr
      let text := stripTagsL body
      match objGet attrs "href" with
      | none => extractLinksF baseUrl f seen acc rest
      | some href =>
        if href == "" || isPreEx "#".data href.data ||
            isPreEx "javascript:".data href.data then
          extractLinksF baseUrl f seen acc rest
        else
          match urlResolve href baseUrl with
          | none => extractLinksF baseUrl f seen acc rest
          | some resolved =>
            if seen.contains resolved then extractLinksF baseUrl f seen acc rest
            else if text == [] then extractLinksF baseUrl f (resolved :: seen) acc rest
            else extractLinksF baseUrl f (resolved :: seen)
              (acc ++ [{ text := ⟨text.take 120⟩, href := resolved }]) rest
    | none => extractLinksF baseUrl f seen acc r

/-- Link extraction. -/
def extractLinks (h : List Char) (baseUrl : String) : List Link :=
  extractLinksF baseUrl h.length [] [] h

/-- One `<input\s+([^>]*?)\/?>` (or `<img\s+([^>]*?)\/?>`) match at the
head: the attribute group (without the optional trailing slash) and
the rest. -/
def selfCloseAt (opn : List Char) (s : List Char) : Option (List Char × List Char) := do
  let s1 ← eatCI opn s
  let s2 ← eatWs1 s1
  match s2.findIdx? (· == '>') with
  | some k =>
    let grp := s2.take k
    let grp := if grp.getLast? == some '/' then grp.dropLast else grp
    some (grp, s2.drop (k + 1))
  | none => none

/-- The `<input …>` loop of `extractForms` (hidden inputs skipped;
`required` tested as a raw substring of the attribute group). -/
def inputsF : Nat → List Field → List Char → List Field
  | 0, acc, _ => acc
  | _, acc, [] => acc
  | Nat.succ f, acc, c :: r =>
    match selfCloseAt "<input".data (c :: r) with
    | some (grp, rest) =>
      let ia := parseAttrs grp
      if objGet ia "type" == some "hidden" then inputsF f acc rest
      else
        let fd := Field.input
          (match optTruthy (objGet ia "type") with | some t => t | none => "text")
          (optTruthy (objGet ia "name")) (optTruthy (objGet ia "placeholder"))
          (occursEx "required".data grp)
        inputsF f (acc ++ [fd]) rest
    | none => inputsF f acc r

/-- One `<textarea\s+([^>]*?)>` match at the head. -/
def textareaAt (s : List Char) : Option (List Char × List Char) := do
  let s1 ← eatCI "<textarea".data s
  let s2 ← eatWs1 s1
  match s2.findIdx? (· == '>') with
  | some k => some (s2.take k, s2.drop (k + 1))
  | none => none

/-- The `<textarea …>` loop of `extractForms`. -/
def textareasF : Nat → List Field → List Char → List Field
  | 0, acc, _ => acc
  | _, acc, [] => acc
  | Nat.succ f, acc, c :: r =>
    match textareaAt (c :: r) with
    | some (grp, rest) =>
      let ta := parseAttrs grp
      let fd := Field.textarea (optTruthy (objGet ta "name"))
        (optTruthy (objGet ta "placeholder")) (occursEx "required".data grp)
      textareasF f (acc ++ [fd]) rest
    | none => textareasF f acc r

/-- One `<option[^>]*>([\s\S]*?)<\/option>` match at the head. -/
def optionAt (s : List Char) : Option (List Char × List Char) := do
  let r ← openTagEnd "<option".data s
  let j ← findCI "</option>".data r
  some (r.take j, r.drop (j + 9))

/-- The `<option>` loop inside one `<select>` (texts pushed even when
empty). -/
def optionsF : Nat → List String → List Char → List String
  | 0, acc, _ => acc
  | _, acc, [] => acc
  | Nat.succ f, acc, c :: r =>
    match optionAt (c :: r) with
    | some (body, rest) => optionsF f (acc ++ [⟨trimL (stripTagsL body)⟩]) rest
    | none => optionsF f acc r

/-- One `<select\s+([^>]*?)>([\s\S]*?)<\/select>` match at the head. -/
def selectAt (s : List Char) : Option (List Char × List Char × List Char) := do
  let s1 ← eatCI "<select".data s
  let s2 ← eatWs1 s1
  match s2.findIdx? (· == '>') with
  | some k =>
    let afterOpen := s2.drop (k + 1)
    match findCI "</select>".data afterOpen with
    | some j => some (s2.take k, afterOpen.take j, afterOpen.drop (j + 9))
    | none => none
  | none => none

/-- The `<select …>` loop of `extractForms` (first 20 option texts). -/
def selectsF : Nat → List Field → List Char → List Field
  | 0, acc, _ => acc
  | _, acc, [] => acc
  | Nat.succ f, acc, c :: r =>
    match selectAt (c :: r) with
    | some (grp, body, rest) =>
      let sa := parseAttrs grp
      let fd := Field.select (optTruthy (objGet sa "name"))
        ((optionsF body.length [] body).take 20)
      selectsF f (acc ++ [fd]) rest
    | none => selectsF f acc r

/-- One `<form\s+([^>]*?)>([\s\S]*?)<\/form>` match at the head. -/
def formAt (s : List Char) : Option (List Char × List Char × List Char) := do
  let s1 ← eatCI "<form".data s
  let s2 ← eatWs1 s1
  match s2.findIdx? (· == '>') with
  | some k =>
    let afterOpen := s2.drop (k + 1)
    match findCI "</form>".data afterOpen with
    | some j => some (s2.take k, afterOpen.take j, afterOpen.drop (j + 7))
    | none => none
  | none => none

/-- `extractForms` (fuelled global scan): per form, the input fields,
then the textarea fields, then the select fields, in that source
order; `method` uppercased with default `GET`. -/
def extractFormsF : Nat → List Form → List Char → List Form
  | 0, acc, _ => acc
  | _, acc, [] => acc
  | Nat.succ f, acc, c :: r =>
    match formAt (c :: r) with
    | some (attrsStr, body, rest) =>
      let attrs := parseAttrs attrsStr
      let fields := inputsF body.length [] body ++ textareasF body.length [] body ++
        selectsF body.length [] body
      let fm : Form :=
        { action := optTruthy (objGet attrs "action"),
          method := match optTruthy (objGet attrs "method") with
            | some m => upperStr m
            | none => "GET",
          fields := fields }
      extractFormsF f (acc ++ [fm]) rest
    | none => extractFormsF f acc r

/-- Form extraction. -/
def extractForms (h : List Char) : List Form := extractFormsF h.length [] h

/-- Digits to a natural number. -/
def natFromDigits (ds : List Char) : Nat := ds.foldl (fun a c => a * 10 + (c.toNat - 48)) 0

/-- Modelled platform primitive: JS `parseInt` on an attribute value
(whitespace skip, optional sign, leading decimal digits; a digit-free
input gives `NaN`, modelled as `none`). -/
def parseIntJS (s : String) : Option Int :=
  let t := s.data.dropWhile isWsChar
  let signed : Int × List Char :=
    match t with
    | '-' :: r => (-1, r)
    | '+' :: r => (1, r)
    | _ => (1, t)
  let ds := signed.2.takeWhile Char.isDigit
  if ds.isEmpty then none else some (signed.1 * (natFromDigits ds : Int))

/-- `extractImages` (fuelled global scan): skip missing `src` and
unresolvable URLs; `alt`, `width`, `height` as in the source. -/
def extractImagesF (baseUrl : String) : Nat → List Image → List Char → List Image
  | 0, acc, _ => acc
  | _, acc, [] => acc
  | Nat.succ f, acc, c :: r =>
    match selfCloseAt "<img".data (c :: r) with
    | some (grp, rest) =>
      let attrs := parseAttrs grp
      match optTruthy (objGet attrs "src") with
      | none => extractImagesF baseUrl f acc rest
      | some src =>
        match urlResolve src baseUrl with
        | none => extractImagesF baseUrl f acc rest
        | some resolved =>
          let img : Image :=
            { src := resolved,
              alt := optTruthy (objGet attrs "alt"),
              width := (optTruthy (objGet attrs "width")).bind parseIntJS,
              height := (optTruthy (objGet attrs "height")).bind parseIntJS }
          extractImagesF baseUrl f (acc ++ [img]) rest
    | none => extractImagesF baseUrl f acc r

/-- Image extraction (capped at 50). -/
def extractImages (h : List Char) (baseUrl : String) : List Image :=
  (extractImagesF baseUrl h.length [] h).take 50

/-- One lazy open/body/close block `OPN[^>]*>([\s\S]*?)CLS` at the
head: body and rest. -/
def blockAt (opn cls : List Char) (s : List Char) : Option (List Char × List Char) := do
  let r ← openTagEnd opn s
  let j ← findCI cls r
  some (r.take j, r.drop (j + cls.length))

/-- One table cell `<t[dh][^>]*>([\s\S]*?)<\/t[dh]>` at the head. -/
def cellAt (s : List Char) : Option (List Char × List Char) :=
  match s with
  | a :: b :: d :: rest =>
    if a == '<' && eqCI 't' b && (eqCI 'd' d || eqCI 'h' d) then
      match rest.findIdx? (· == '>') with
      | some k =>
        let body := rest.drop (k + 1)
        match scanFirstP (fun t =>
            match t with
            | x :: y :: z :: w :: v :: tr =>
              if x == '<' && y == '/' && eqCI 't' z && (eqCI 'd' w || eqCI 'h' w) &&
                  v == '>' then
                some (t, tr)
              else none
            | _ => none) body with
        | some (closeSfx, afterClose) =>
          some (body.take (body.length - closeSfx.length), afterClose)
        | none => none
      | none => none
    else none
  | _ => none

/-- The cell loop of one table row. -/
def cellsF : Nat → List String → List Char → List String
  | 0, acc, _ => acc
  | _, acc, [] => acc
  | Nat.succ f, acc, c :: r =>
    match cellAt (c :: r) with
    | some (body, rest) => cellsF f (acc ++ [⟨trimL (stripTagsL body)⟩]) rest
    | none => cellsF f acc r

/-- The row loop of one table (rows with no cells dropped). -/
def rowsF : Nat → List (List String) → List Char → List (List String)
  | 0, acc, _ => acc
  | _, acc, [] => acc
  | Nat.succ f, acc, c :: r =>
    match blockAt "<tr".data "</tr>".data (c :: r) with
    | some (body, rest) =>
      let cells := cellsF body.length [] body
      if cells == [] then rowsF f acc rest else rowsF f (acc ++ [cells]) rest
    | none => rowsF f acc r

/-- `extractTables` (tables with no rows dropped; capped at 10). -/
def extractTablesF : Nat → List (List (List String)) → List Char → List (List (List String))
  | 0, acc, _ => acc
  | _, acc, [] => acc
  | Nat.succ f, acc, c :: r =>
    match blockAt "<table".data "</table>".data (c :: r) with
    | some (body, rest) =>
      let rows := rowsF body.length [] body
      if rows == [] then extractTablesF f acc rest
      else extractTablesF f (acc ++ [rows]) rest
    | none => extractTablesF f acc r

/-- Table extraction. -/
def extractTables (h : List Char) : List (List (List String)) :=
  (extractTablesF h.length [] h).take 10

/-- Scan the character span after `<div` for a `class=`/`id=` key
reachable without crossing a `>`, whose quoted value contains one of
`content`, `main`, `article`; return the suffix after the closing
quote (the backtracking of
`(?:class|id)=["'][^"']*(?:content|main|article)[^"']*["']` tries
each key in turn). -/
def mainDivKeyF : Nat → List Char → Option (List Char)
  | 0, _ => none
  | _, [] => none
  | Nat.succ f, c :: r =>
    if isPreCI "class=".data (c :: r) || isPreCI "id=".data (c :: r) then
      let try1 : Option (List Char) := do
        let s1 ←
          match eatCI "class=".data (c :: r) with
          | some s1 => some s1
          | none => eatCI "id=".data (c :: r)
        let s2 ← eatQuote s1
        let run := s2.takeWhile (fun d => !(d == dq || d == sq))
        let s3 := s2.drop run.length
        let _ ← eatQuote s3
        if occursCI "content".data run || occursCI "main".data run ||
            occursCI "article".data run then
          some ((s3.drop 1 : List Char))
        else none
      match try1 with
      | some out => some out
      | none => mainDivKeyF f r
    else if c == '>' then none
    else mainDivKeyF f r

/-- One match of the main-content `<div>` selector at the head:
the lazy body group. -/
def mainDivAt (s : List Char) : Option (List Char) := do
  let r ← eatCI "<div".data s
  let afterQuote ← mainDivKeyF r.length r
  match afterQuote.findIdx? (· == '>') with
  | some k =>
    let body := afterQuote.drop (k + 1)
    let j ← findCI "</div>".data body
    pure (body.take j)
  | none => none

/-- `extractText` of `lite-renderer.js`: remove script, style, nav,
footer and header blocks; select the first `<main>`, else `<article>`,
else a content/main/article `<div>`, else keep the cleaned page; strip
tags; entity-decode; truncate to 5000. -/
def extractText (h : List Char) : String :=
  let clean :=
    stripLazy "<header".data "</header>".data
      (stripLazy "<footer".data "</footer>".data
        (stripLazy "<nav".data "</nav>".data
          (stripLazy "<style".data "</style>".data
            (stripLazy "<script".data "</script>".data h))))
  let mainMatch :=
    match scanFirstP (fun s => (blockAt "<main".data "</main>".data s).map (fun p => p.1)) clean with
    | some g => some g
    | none =>
      match scanFirstP (fun s => (blockAt "<article".data "</article>".data s).map (fun p => p.1)) clean with
      | some g => some g
      | none => scanFirstP mainDivAt clean
  let clean2 := match mainMatch with | some g => g | none => clean
  ⟨(decodeEntitiesL (stripTagsL clean2)).take 5000⟩

/-- `parseHTML` of `lite-renderer.js`: the per-field extractors and
the stats record (counts equal to the array lengths). -/
def parseHTML (html url : String) : Page :=
  let h := html.data
  let headings := extractHeadings h
  let links := extractLinks h url
  let forms := extractForms h
  let images := extractImages h url
  let textContent := extractText h
  let tables := extractTables h
  { url := url, title := extractTitle h, meta := extractMeta h,
    headings := headings, links := links, forms := forms, images := images,
    textContent := textContent, tables := tables,
    stats := { headingCount := headings.length, linkCount := links.length,
               formCount := forms.length, imageCount := images.length,
               tableCount := tables.length, textLength := textContent.length } }

/-! ### `renderLite` -/

/-- Outcome of one HTTP fetch (the network effect, embedded as data):
response body, status, content type (`None` when the header is
absent) and final URL after redirects. -/
structure Fetched where
  html : String
  status : Nat
  contentType : Option String
  finalUrl : String
deriving Repr, DecidableEq

/-- Options of `renderLite`; `rawHtml` is the JS `_rawHtml`
(pre-fetched HTML). -/
structure LiteOpts where
  timeoutMs : Option Nat := none
  rawHtml : Option String := none
deriving Repr, DecidableEq

/-- `renderLite` of `lite-renderer.js`.  When `_rawHtml` is supplied
the network is not touched: the HTML is parsed and the result is
stamped `httpStatus = 200`, `contentType = "text/html"`,
`renderer = "lite"` unconditionally.  Otherwise the fetch outcome
`env` is consumed: a transport error propagates, a non-2xx status
throws `HTTP <status>`, and a success parses the body against the
final URL. -/
def renderLite (env : Except String Fetched) (url : String) (opts : LiteOpts) :
    Except String Page :=
  match opts.rawHtml with
  | some raw =>
    let result := parseHTML raw url
    Except.ok
      { result with
        httpStatus := some 200, contentType := some "text/html",
        renderer := some "lite" }
  | none =>
    match env with
    | Except.error e => Except.error e
    | Except.ok f =>
      if 200 ≤ f.status ∧ f.status ≤ 299 then
        let finalUrl := if f.finalUrl == "" then url else f.finalUrl
        let result := parseHTML f.html finalUrl
        Except.ok
          { result with
            httpStatus := some f.status, contentType := f.contentType,
            renderer := some "lite" }
      else Except.error ("HTTP " ++ toString f.status)

/-- Claim C10: whenever `renderLite` is invoked with pre-fetched HTML
(the `_rawHtml` option), it succeeds unconditionally — regardless of
the fetch environment — and the returned PageRecord carries
`httpStatus = 200` and `contentType = "text/html"`, whatever status
or content type the HTML actually came from; no non-2xx failure is
possible on that path. -/
theorem C10_rawHtml_stamps (env : Except String Fetched) (url raw : String)
    (opts : LiteOpts) (h : opts.rawHtml = some raw) :
    ∃ p, renderLite env url opts = Except.ok p ∧
      p.httpStatus = some 200 ∧ p.contentType = some "text/html" := by
  refine ⟨{ parseHTML raw url with
            httpStatus := some 200,
            contentType := some "text/html",
            renderer := some "lite" }, ?_, rfl, rfl⟩
  unfold renderLite
  rw [h]

/-- Claim C10, witness: the theorem applied with a failing fetch
environment and a concrete raw HTML string — the stamped result is
still a success with status 200. -/
theorem C10_witness :
    ∃ p, renderLite (Except.error "ECONNREFUSED") "https://ex.example/"
        { rawHtml := some "<p>hello there</p>" } = Except.ok p ∧
      p.httpStatus = some 200 ∧ p.contentType = some "text/html" :=
  C10_rawHtml_stamps (Except.error "ECONNREFUSED") "https://ex.example/"
    "<p>hello there</p>" { rawHtml := some "<p>hello there</p>" } rfl

/-! ### Render results and the page cache (`cache.js`)

SQLite is embedded as an explicit table state: a list of rows plus the
autoincrement counter.  A SQL table has no semantically meaningful row
order; the model keeps rows in insertion order and, after an eviction,
in eviction-key order (ties in SQLite's `ORDER BY` are unspecified;
the model breaks them stably). -/

/-- The `chunks` field of a render result: `null` (chunker threw), a
plain chunk list (no query) or a ranked list (query given). -/
inductive ResultChunks where
  | none
  | plain (cs : List Chunk)
  | ranked (cs : List RankedChunk)
deriving Repr, DecidableEq

/-- One render result (the orchestrator's return value; also the
cached payload). -/
structure RenderResult where
  url : String
  backend : String
  detection : Option Detection := Option.none
  error : Option String := Option.none
  data : Option Page := Option.none
  chunks : ResultChunks := ResultChunks.none
  summary : Option String := Option.none
  ms : Nat := 0
  cached : Bool := false
deriving Repr, DecidableEq

/-- `stripUnserializable` composed with the `JSON.stringify` /
`JSON.parse` round-trip: on the embedded `RenderResult` (pure data —
no callables and no Playwright `Page` objects, which are the only
things the walk drops) it is the identity, so storage is modelled as
storing the value. -/
def stripUnserializable (r : RenderResult) : RenderResult := r

/-- One row of the `page_cache` table. -/
structure CacheEntry where
  id : Nat
  url : String
  query : String
  backend : String
  result : RenderResult
  createdAt : Nat
  expiresAt : Nat
  hitCount : Nat
  lastHit : Nat
deriving Repr, DecidableEq

/-- The cache: configuration plus table state. -/
structure CacheState where
  ttlMs : Nat := 600000
  maxEntries : Nat := 500
  entries : List CacheEntry := []
  nextId : Nat := 1
deriving Repr, DecidableEq

/-- `PageCache.get`: no row → miss; expired row → delete it and miss;
live row → bump `hitCount`, set `lastHit = now`, return the stored
result (the `JSON.parse` of the stored text always succeeds on
embedded values).  Returns the value and the new state. -/
def cacheGet (s : CacheState) (url query : String) (now : Nat) :
    Option RenderResult × CacheState :=
  match s.entries.find? (fun e => e.url == url && e.query == query) with
  | Option.none => (Option.none, s)
  | some row =>
    if row.expiresAt < now then
      (Option.none,
       { s with entries := s.entries.filter (fun e => !(e.id == row.id)) })
    else
      (some row.result,
       { s with entries := s.entries.map (fun e =>
           if e.id == row.id then { e with hitCount := e.hitCount + 1, lastHit := now }
           else e) })

/-- Eviction rank: expired rows first
(`CASE WHEN expires_at < now THEN 0 ELSE 1 END`). -/
def evictRank (now : Nat) (e : CacheEntry) : Nat := if e.expiresAt < now then 0 else 1

/-- The eviction ordering: expired first, then ascending `last_hit`. -/
def evictKeyLe (now : Nat) (a b : CacheEntry) : Bool :=
  decide (evictRank now a < evictRank now b ∨
    (evictRank now a = evictRank now b ∧ a.lastHit ≤ b.lastHit))

/-- `PageCache._evictIfNeeded`: when the row count exceeds
`maxEntries`, delete `count − maxEntries` rows chosen by the eviction
ordering (the survivors are the remainder of the sorted order). -/
def evictIfNeeded (s : CacheState) (now : Nat) : CacheState :=
  let count := s.entries.length
  if count ≤ s.maxEntries then s
  else
    { s with entries :=
        (sortS (evictKeyLe now) s.entries).drop (count - s.maxEntries) }

/-- The upsert part of `PageCache.set` (`INSERT … ON CONFLICT (url,
query) DO UPDATE …`): reset `hitCount`, `lastHit`, `createdAt`,
`expiresAt`; `backend` taken from the result. -/
def cacheUpsert (s : CacheState) (url query : String) (result : RenderResult)
    (ttlMs : Option Nat) (now : Nat) : CacheState :=
  let ttl := ttlMs.getD s.ttlMs
  let expiresAt := now + ttl
  let backend := result.backend
  let stored := stripUnserializable result
  if s.entries.any (fun e => e.url == url && e.query == query) then
    { s with entries := s.entries.map (fun e =>
        if e.url == url && e.query == query then
          { e with
            backend := backend, result := stored, createdAt := now,
            expiresAt := expiresAt, hitCount := 0, lastHit := now }
        else e) }
  else
    let row : CacheEntry :=
      { id := s.nextId, url := url, query := query, backend := backend,
        result := stored, createdAt := now, expiresAt := expiresAt,
        hitCount := 0, lastHit := now }
    { s with entries := s.entries ++ [row], nextId := s.nextId + 1 }

/-- `PageCache.set`: upsert, then evict if over the limit. -/
def cacheSet (s : CacheState) (url query : String) (result : RenderResult)
    (ttlMs : Option Nat) (now : Nat) : CacheState :=
  evictIfNeeded (cacheUpsert s url query result ttlMs now) now

/-- `PageCache.invalidate`: delete all rows of a URL; returns the
count removed and the new state. -/
def cacheInvalidate (s : CacheState) (url : String) : Nat × CacheState :=
  ((s.entries.filter (fun e => e.url == url)).length,
   { s with entries := s.entries.filter (fun e => !(e.url == url)) })

/-- `PageCache.purgeExpired`. -/
def cachePurgeExpired (s : CacheState) (now : Nat) : Nat × CacheState :=
  ((s.entries.filter (fun e => decide (e.expiresAt < now))).length,
   { s with entries := s.entries.filter (fun e => !decide (e.expiresAt < now)) })

/-- One row of `stats().topHits`. -/
structure TopHit where
  url : String
  query : String
  hitCount : Nat
  backend : String
deriving Repr, DecidableEq

/-- The `stats()` record. -/
structure CacheStats where
  entries : Nat
  expired : Nat
  active : Nat
  backends : List (String × Nat)
  oldestMs : Option Nat
  topHits : List TopHit
deriving Repr, DecidableEq

/-- First-occurrence deduplication (the order of SQL `GROUP BY` output
is unspecified; the model uses first appearance). -/
def dedupFirst (l : List String) : List String :=
  l.foldl (fun acc x => if acc.contains x then acc else acc ++ [x]) []

/-- `PageCache.stats`. -/
def cacheStatsOf (s : CacheState) (now : Nat) : CacheStats :=
  let total := s.entries.length
  let expired := (s.entries.filter (fun e => decide (e.expiresAt < now))).length
  let backends := (dedupFirst (s.entries.map (fun e => e.backend))).map
    (fun b => (b, (s.entries.filter (fun e => e.backend == b)).length))
  let oldest := s.entries.foldl
    (fun (acc : Option Nat) e =>
      match acc with
      | Option.none => some e.createdAt
      | some m => some (min m e.createdAt)) Option.none
  { entries := total, expired := expired, active := total - expired,
    backends := backends, oldestMs := oldest.map (fun t => now - t),
    topHits := ((sortS (fun a b => decide (b.hitCount ≤ a.hitCount)) s.entries).take 5).map
      (fun e => { url := e.url, query := e.query, hitCount := e.hitCount,
                  backend := e.backend }) }

/-- Claim C2: cache `get` semantics.  For a well-formed table (at most
one row per `(url, query)` key): when no row matches, `get` misses and
leaves the state unchanged; when the matching row is expired
(`expiresAt < now`), `get` returns `none`, deletes the row, and the
key misses on any subsequent call; otherwise `get` increments
`hitCount` by one, sets `lastHit = now`, and returns the stored
(deserialized) render result. -/
theorem C2_cache_get (s : CacheState) (url query : String) (now : Nat)
    (hWF : ∀ e1 ∈ s.entries, ∀ e2 ∈ s.entries,
      e1.url = e2.url → e1.query = e2.query → e1 = e2) :
    (s.entries.find? (fun e => e.url == url && e.query == query) = Option.none →
      cacheGet s url query now = (Option.none, s)) ∧
    (∀ row, s.entries.find? (fun e => e.url == url && e.query == query) = some row →
      row.expiresAt < now →
      (cacheGet s url query now).1 = Option.none ∧
      ∀ now2, (cacheGet (cacheGet s url query now).2 url query now2).1 = Option.none) ∧
    (∀ row, s.entries.find? (fun e => e.url == url && e.query == query) = some row →
      ¬(row.expiresAt < now) →
      (cacheGet s url query now).1 = some row.result ∧
      (cacheGet s url query now).2.entries.find?
          (fun e => e.url == url && e.query == query)
        = some { row with hitCount := row.hitCount + 1, lastHit := now }) := by
  refine ⟨?_, ?_, ?_⟩
  · intro h
    simp [cacheGet, h]
  · intro row hfind hexp
    have hmem := List.mem_of_find?_eq_some hfind
    have hkey := List.find?_some hfind
    simp only [Bool.and_eq_true, beq_iff_eq] at hkey
    constructor
    · simp [cacheGet, hfind, hexp]
    · intro now2
      have hnone : (s.entries.filter (fun e => !(e.id == row.id))).find?
          (fun e => e.url == url && e.query == query) = Option.none := by
        rw [List.find?_eq_none]
        intro x hx hpx
        rcases List.mem_filter.mp hx with ⟨hxl, hxid⟩
        simp only [Bool.and_eq_true, beq_iff_eq] at hpx
        have hxr : x = row :=
          hWF x hxl row hmem (by rw [hpx.1, hkey.1]) (by rw [hpx.2, hkey.2])
        rw [hxr] at hxid
        simp at hxid
      simp [cacheGet, hfind, hexp, hnone]
  · intro row hfind hlive
    constructor
    · simp [cacheGet, hfind, hlive]
    · simp only [cacheGet, hfind, if_neg hlive]
      rw [List.find?_map]
      have hpf : ((fun e : CacheEntry => e.url == url && e.query == query) ∘
          (fun e : CacheEntry =>
            if e.id == row.id then { e with hitCount := e.hitCount + 1, lastHit := now }
            else e))
          = fun e : CacheEntry => e.url == url && e.query == query := by
        funext e
        by_cases h : e.id = row.id
        · simp [h]
        · simp [h]
      rw [hpf, hfind]
      simp

/-- Claim C2, witness: the theorem's live-hit case applied to a
concrete one-row table. -/
theorem C2_witness :
    (cacheGet
      { ttlMs := 600000, maxEntries := 500,
        entries := [{ id := 1, url := "https://a.example/", query := "",
                      backend := "lite",
                      result := { url := "https://a.example/", backend := "lite" },
                      createdAt := 100, expiresAt := 200, hitCount := 0,
                      lastHit := 100 }],
        nextId := 2 }
      "https://a.example/" "" 150).1
      = some { url := "https://a.example/", backend := "lite" } :=
  ((C2_cache_get
    { ttlMs := 600000, maxEntries := 500,
      entries := [{ id := 1, url := "https://a.example/", query := "",
                    backend := "lite",
                    result := { url := "https://a.example/", backend := "lite" },
                    createdAt := 100, expiresAt := 200, hitCount := 0,
                    lastHit := 100 }],
      nextId := 2 }
    "https://a.example/" "" 150 (by decide)).2.2
    { id := 1, url := "https://a.example/", query := "", backend := "lite",
      result := { url := "https://a.example/", backend := "lite" },
      createdAt := 100, expiresAt := 200, hitCount := 0, lastHit := 100 }
    (by decide) (by decide)).1

theorem evictKeyLe_total (now : Nat) (a b : CacheEntry) :
    evictKeyLe now a b = true ∨ evictKeyLe now b a = true := by
  simp only [evictKeyLe, decide_eq_true_eq]
  rcases Nat.lt_trichotomy (evictRank now a) (evictRank now b) with h | h | h
  · exact Or.inl (Or.inl h)
  · rcases Nat.le_total a.lastHit b.lastHit with hl | hl
    · exact Or.inl (Or.inr ⟨h, hl⟩)
    · exact Or.inr (Or.inr ⟨h.symm, hl⟩)
  · exact Or.inr (Or.inl h)

theorem evictKeyLe_trans (now : Nat) (a b c : CacheEntry)
    (h1 : evictKeyLe now a b = true) (h2 : evictKeyLe now b c = true) :
    evictKeyLe now a c = true := by
  simp only [evictKeyLe, decide_eq_true_eq] at h1 h2 ⊢
  rcases h1 with h1 | ⟨h1e, h1l⟩ <;> rcases h2 with h2 | ⟨h2e, h2l⟩
  · exact Or.inl (by omega)
  · exact Or.inl (by omega)
  · exact Or.inl (by omega)
  · exact Or.inr ⟨by omega, le_trans h1l h2l⟩

theorem evictIfNeeded_length_le (s : CacheState) (now : Nat) :
    (evictIfNeeded s now).entries.length ≤ s.maxEntries := by
  by_cases h : s.entries.length ≤ s.maxEntries
  · simp only [evictIfNeeded, if_pos h]
    exact h
  · simp only [evictIfNeeded, if_neg h]
    simp only [List.length_drop, length_sortS]
    omega

theorem evictIfNeeded_maxEntries (s : CacheState) (now : Nat) :
    (evictIfNeeded s now).maxEntries = s.maxEntries := by
  by_cases h : s.entries.length ≤ s.maxEntries
  · simp only [evictIfNeeded, if_pos h]
  · simp only [evictIfNeeded, if_neg h]

theorem cacheUpsert_maxEntries (s : CacheState) (url query : String)
    (result : RenderResult) (ttlMs : Option Nat) (now : Nat) :
    (cacheUpsert s url query result ttlMs now).maxEntries = s.maxEntries := by
  by_cases h : (s.entries.any (fun e => e.url == url && e.query == query)) = true
  · simp only [cacheUpsert, if_pos h]
  · simp only [cacheUpsert, if_neg h]

/-- One `set` call as a fold step. -/
structure SetOp where
  url : String
  query : String
  result : RenderResult
  ttlMs : Option Nat := Option.none
  now : Nat
deriving Repr, DecidableEq

/-- Apply one `set`. -/
def doSet (s : CacheState) (op : SetOp) : CacheState :=
  cacheSet s op.url op.query op.result op.ttlMs op.now

theorem cacheSet_length_le (s : CacheState) (url query : String)
    (result : RenderResult) (ttlMs : Option Nat) (now : Nat) :
    (cacheSet s url query result ttlMs now).entries.length ≤ s.maxEntries := by
  unfold cacheSet
  calc (evictIfNeeded (cacheUpsert s url query result ttlMs now) now).entries.length
      ≤ (cacheUpsert s url query result ttlMs now).maxEntries :=
        evictIfNeeded_length_le _ _
    _ = s.maxEntries := cacheUpsert_maxEntries _ _ _ _ _ _

theorem cacheSet_maxEntries (s : CacheState) (url query : String)
    (result : RenderResult) (ttlMs : Option Nat) (now : Nat) :
    (cacheSet s url query result ttlMs now).maxEntries = s.maxEntries := by
  unfold cacheSet
  rw [evictIfNeeded_maxEntries, cacheUpsert_maxEntries]

theorem doSet_maxEntries (s : CacheState) (op : SetOp) :
    (doSet s op).maxEntries = s.maxEntries := cacheSet_maxEntries _ _ _ _ _ _

theorem foldl_doSet_le (ops : List SetOp) :
    ∀ (s0 : CacheState), s0.entries.length ≤ s0.maxEntries →
      (ops.foldl doSet s0).entries.length ≤ s0.maxEntries := by
  induction ops with
  | nil => intro s0 h; exact h
  | cons op ops ih =>
    intro s0 h
    have h1 : (doSet s0 op).entries.length ≤ (doSet s0 op).maxEntries := by
      rw [doSet_maxEntries]
      exact cacheSet_length_le _ _ _ _ _ _
    have h2 := ih (doSet s0 op) h1
    rw [doSet_maxEntries] at h2
    exact h2

/-- Claim C3: after a `set`, if the row count (after the upsert)
exceeds `maxEntries`, exactly `count − maxEntries` rows are deleted,
chosen by the eviction ordering (expired rows first, then ascending
`lastHit`): the surviving rows are the remainder of the eviction-sorted
order, exactly `maxEntries` many, and every deleted row precedes every
surviving row in the eviction ordering.  Consequently, after any
sequence of `set` operations, `stats().entries ≤ maxEntries`. -/
theorem C3_set_eviction (s : CacheState) (op : SetOp) (ops : List SetOp) (now2 : Nat) :
    ((s.maxEntries <
        (cacheUpsert s op.url op.query op.result op.ttlMs op.now).entries.length) →
      ((doSet s op).entries
          = (sortS (evictKeyLe op.now)
              (cacheUpsert s op.url op.query op.result op.ttlMs op.now).entries).drop
              ((cacheUpsert s op.url op.query op.result op.ttlMs op.now).entries.length
                - s.maxEntries) ∧
       (doSet s op).entries.length = s.maxEntries ∧
       ∀ d ∈ (sortS (evictKeyLe op.now)
              (cacheUpsert s op.url op.query op.result op.ttlMs op.now).entries).take
              ((cacheUpsert s op.url op.query op.result op.ttlMs op.now).entries.length
                - s.maxEntries),
         ∀ k ∈ (doSet s op).entries, evictKeyLe op.now d k = true)) ∧
    (cacheStatsOf (ops.foldl doSet (doSet s op)) now2).entries ≤ s.maxEntries := by
  constructor
  · intro hover
    have hmax := cacheUpsert_maxEntries s op.url op.query op.result op.ttlMs op.now
    have hnot : ¬((cacheUpsert s op.url op.query op.result op.ttlMs op.now).entries.length
        ≤ (cacheUpsert s op.url op.query op.result op.ttlMs op.now).maxEntries) := by
      rw [hmax]; omega
    have hds : (doSet s op).entries
        = (sortS (evictKeyLe op.now)
            (cacheUpsert s op.url op.query op.result op.ttlMs op.now).entries).drop
            ((cacheUpsert s op.url op.query op.result op.ttlMs op.now).entries.length
              - s.maxEntries) := by
      show (evictIfNeeded (cacheUpsert s op.url op.query op.result op.ttlMs op.now)
        op.now).entries = _
      unfold evictIfNeeded
      rw [if_neg hnot, hmax]
    refine ⟨hds, ?_, ?_⟩
    · rw [hds]
      simp only [List.length_drop, length_sortS]
      omega
    · intro d hd k hk
      rw [hds] at hk
      have hpw := pairwise_sortS (evictKeyLe op.now) (evictKeyLe_total op.now)
        (evictKeyLe_trans op.now)
        (cacheUpsert s op.url op.query op.result op.ttlMs op.now).entries
      have hsplit := List.take_append_drop
        ((cacheUpsert s op.url op.query op.result op.ttlMs op.now).entries.length
          - s.maxEntries)
        (sortS (evictKeyLe op.now)
          (cacheUpsert s op.url op.query op.result op.ttlMs op.now).entries)
      rw [← hsplit] at hpw
      rcases List.pairwise_append.mp hpw with ⟨_, _, hcross⟩
      exact hcross d hd k hk
  · show (ops.foldl doSet (doSet s op)).entries.length ≤ s.maxEntries
    have h1 : (doSet s op).entries.length ≤ (doSet s op).maxEntries := by
      rw [doSet_maxEntries]
      exact cacheSet_length_le _ _ _ _ _ _
    have h2 := foldl_doSet_le ops (doSet s op) h1
    rw [doSet_maxEntries] at h2
    exact h2

/-- Claim C3, witness: a one-slot cache receiving a second key evicts
down to exactly one row, and the stats bound holds. -/
theorem C3_witness :
    ((doSet
        { ttlMs := 600000, maxEntries := 1,
          entries := [{ id := 1, url := "https://a.example/", query := "",
                        backend := "lite",
                        result := { url := "https://a.example/", backend := "lite" },
                        createdAt := 0, expiresAt := 1000, hitCount := 0,
                        lastHit := 10 }],
          nextId := 2 }
        { url := "https://b.example/", query := "",
          result := { url := "https://b.example/", backend := "lite" },
          ttlMs := Option.none, now := 50 }).entries.length = 1) ∧
    (cacheStatsOf
        (doSet
          { ttlMs := 600000, maxEntries := 1,
            entries := [{ id := 1, url := "https://a.example/", query := "",
                          backend := "lite",
                          result := { url := "https://a.example/", backend := "lite" },
                          createdAt := 0, expiresAt := 1000, hitCount := 0,
                          lastHit := 10 }],
            nextId := 2 }
          { url := "https://b.example/", query := "",
            result := { url := "https://b.example/", backend := "lite" },
            ttlMs := Option.none, now := 50 }) 60).entries ≤ 1 := by
  constructor
  · exact ((C3_set_eviction
      { ttlMs := 600000, maxEntries := 1,
        entries := [{ id := 1, url := "https://a.example/", query := "",
                      backend := "lite",
                      result := { url := "https://a.example/", backend := "lite" },
                      createdAt := 0, expiresAt := 1000, hitCount := 0,
                      lastHit := 10 }],
        nextId := 2 }
      { url := "https://b.example/", query := "",
        result := { url := "https://b.example/", backend := "lite" },
        ttlMs := Option.none, now := 50 } [] 60).1 (by decide)).2.1
  · exact (C3_set_eviction
      { ttlMs := 600000, maxEntries := 1,
        entries := [{ id := 1, url := "https://a.example/", query := "",
                      backend := "lite",
                      result := { url := "https://a.example/", backend := "lite" },
                      createdAt := 0, expiresAt := 1000, hitCount := 0,
                      lastHit := 10 }],
        nextId := 2 }
      { url := "https://b.example/", query := "",
        result := { url := "https://b.example/", backend := "lite" },
        ttlMs := Option.none, now := 50 } [] 60).2

/-! ### Render orchestrator (`render` of `smart-renderer.js`)

The per-call effects are embedded as data: the raw-HTML fetch outcome
and the Playwright render outcome come from a `RenderEnv`, and the
wall clock is a single instant (`ms` elapsed times are 0 under this
clock; no claim is about them).  The shared module cache instance is
passed and returned explicitly. -/

/-- The effect environment of one `render` call. -/
structure RenderEnv where
  fetchResult : Except String Fetched
  pwResult : Except String Page
  now : Nat

/-- Options of `render`. -/
structure RenderOpts where
  force : Option String := Option.none
  query : Option String := Option.none
  chunkLimit : Nat := 8
  timeout : Nat := 15000
  verbose : Bool := false
  noCache : Bool := false
  cacheTtlMs : Option Nat := Option.none
deriving Repr, DecidableEq

/-- `formatChunks` of `semantic-chunks.js` (default options
`limit = 10`, `minScore = 0`): filter by score, truncate, render each
chunk as a header line and its text, join with `---` separators. -/
def formatChunksL (cs : List Chunk) (limit : Nat) (minScore : Int) : String :=
  let filtered := (cs.filter (fun c => decide (minScore ≤ c.score))).take limit
  String.intercalate "\n\n---\n\n" (filtered.map (fun c =>
    let header := String.intercalate " " ([
      some ("[chunk:" ++ toString c.id ++ "]"),
      some ("type=" ++ c.type),
      (optTruthy c.sect).map (fun s => "section=" ++ qstr s),
      some ("score=" ++ toString c.score)].filterMap id)
    header ++ "\n" ++ c.text))

/-- `formatChunks` with its default options. -/
def formatChunks (cs : List Chunk) : String := formatChunksL cs 10 0

/-- `formatChunks` on ranked chunks (it reads only the fields shared
with `Chunk`, so it factors through the underlying chunk). -/
def formatChunksRanked (rcs : List RankedChunk) : String :=
  formatChunksL (rcs.map (fun rc => rc.toChunk)) 10 0

/-- `buildResult` of `smart-renderer.js`: chunk the page; rank by the
query when one is given (JS truthiness: the empty query takes the
unranked path), else take the first `chunkLimit` chunks; format the
summary.  When the ranking throws (invalid query token), degrade:
`chunks = null` and the summary is the first 2000 characters of the
text content. -/
def buildResult (url backend : String) (detection : Detection) (data : Page)
    (query : Option String) (chunkLimit : Nat) (env : RenderEnv) : RenderResult :=
  let allChunks := chunkPage data {}
  let ranked : Except String (ResultChunks × String) :=
    match optTruthy query with
    | some q =>
      match findRelevant allChunks q chunkLimit with
      | Except.ok rcs => Except.ok (ResultChunks.ranked rcs, formatChunksRanked rcs)
      | Except.error e => Except.error e
    | Option.none =>
      Except.ok (ResultChunks.plain (allChunks.take chunkLimit),
        formatChunks (allChunks.take chunkLimit))
  match ranked with
  | Except.ok rcs =>
    { url := url, backend := backend, detection := some detection, data := some data,
      chunks := rcs.1, summary := some rcs.2, ms := env.now - env.now, cached := false }
  | Except.error _ =>
    { url := url, backend := backend, detection := some detection, data := some data,
      chunks := ResultChunks.none,
      summary := some ⟨data.textContent.data.take 2000⟩,
      ms := env.now - env.now, cached := false }

/-- `render` of `smart-renderer.js`: cache lookup (skipped under
`noCache` or a truthy `force`), raw fetch (an error returns a
`backend="error"` result), SPA detection, backend choice, render (the
lite path reuses the fetched HTML), fallback to lite when the
Playwright path throws (returning early, without a cache store),
result build, and the cache store for non-error results with default
TTL 5 min for `playwright` and 10 min otherwise.  Returns the result
and the cache state after the call. -/
def render (env : RenderEnv) (url : String) (opts : RenderOpts)
    (cache : CacheState) : RenderResult × CacheState :=
  let cacheKey := opts.query.getD ""
  let forceT := optTruthy opts.force
  let lookedUp : Option RenderResult × CacheState :=
    if !opts.noCache && forceT == Option.none then cacheGet cache url cacheKey env.now
    else (Option.none, cache)
  match lookedUp.1 with
  | some hit => ({ hit with cached := true, ms := env.now - env.now }, lookedUp.2)
  | Option.none =>
    match env.fetchResult with
    | Except.error e =>
      ({ url := url, backend := "error", error := some ("Fetch failed: " ++ e),
         ms := env.now - env.now }, lookedUp.2)
    | Except.ok fetched =>
      let rawHtml := fetched.html
      let detection := detectSPA rawHtml
      let useLite := opts.force == some "lite" || (forceT == Option.none && !detection.isSPA)
      let backend := if useLite then "lite" else "playwright"
      match (if useLite then renderLite env.fetchResult url { rawHtml := some rawHtml }
             else env.pwResult) with
      | Except.ok data =>
        let result := buildResult url backend detection data opts.query opts.chunkLimit env
        let cache2 :=
          if !opts.noCache && !(result.backend == "error") then
            cacheSet lookedUp.2 url cacheKey result
              (some (opts.cacheTtlMs.getD (if backend == "playwright" then 300000 else 600000)))
              env.now
          else lookedUp.2
        (result, cache2)
      | Except.error err =>
        if backend == "playwright" then
          match renderLite env.fetchResult url { rawHtml := some rawHtml } with
          | Except.ok data2 =>
            (buildResult url "lite-fallback" detection data2 opts.query opts.chunkLimit env,
             lookedUp.2)
          | Except.error e2 =>
            ({ url := url, backend := "error", error := some e2,
               ms := env.now - env.now }, lookedUp.2)
        else
          ({ url := url, backend := "error", error := some err,
             ms := env.now - env.now }, lookedUp.2)

theorem buildResult_backend (url backend : String) (detection : Detection)
    (data : Page) (query : Option String) (chunkLimit : Nat) (env : RenderEnv) :
    (buildResult url backend detection data query chunkLimit env).backend = backend := by
  unfold buildResult
  split
  · dsimp only
    split <;> rfl
  · rfl

/-- The page `renderLite` produces from pre-fetched HTML (used to
state the orchestrator theorems). -/
def liteRawPage (html url : String) : Page :=
  { parseHTML html url with
    httpStatus := some 200, contentType := some "text/html",
    renderer := some "lite" }

theorem renderLite_rawHtml (e : Except String Fetched) (url html : String) :
    renderLite e url { rawHtml := some html } = Except.ok (liteRawPage html url) := rfl

/-- Claim C1, counterexample.  The claim states that every non-error
result is cached when `noCache` is false — in particular a
`lite-fallback` result.  On a fetched page that is SPA-detected
(empty React root div) whose Playwright render throws, the fallback
succeeds and the call returns `backend = "lite-fallback"`, yet the
cache is still empty afterwards: the fallback path returns before the
cache-store step. -/
theorem C1_counterexample :
    (((render
        ⟨Except.ok ⟨"<div id=\x22root\x22></div>", 200, some "text/html", ""⟩,
         Except.error "playwright crashed", 1000⟩
        "https://spa.example/" {} {}).1).backend = "lite-fallback") ∧
    (({} : RenderOpts).noCache = false) ∧
    (((render
        ⟨Except.ok ⟨"<div id=\x22root\x22></div>", 200, some "text/html", ""⟩,
         Except.error "playwright crashed", 1000⟩
        "https://spa.example/" {} {}).2).entries = []) := by
  exact ⟨by decide, rfl, by decide⟩

/-- Claim C1, amended.  For every `render` call with `noCache` false,
no `force`, a cache miss and a successful raw fetch: when detection
chooses the lite path, the result (backend `lite`) is stored under
`(url, query ?? "")` with default TTL 10 minutes; when detection
chooses Playwright and it succeeds, the result (backend `playwright`)
is stored with default TTL 5 minutes; but when Playwright throws, the
call returns the `lite-fallback` result built from the fetched HTML
without storing anything (the fallback path returns before the
cache-store step). -/
theorem C1_amended (env : RenderEnv) (url : String) (opts : RenderOpts)
    (cache : CacheState) (fetched : Fetched)
    (hnc : opts.noCache = false) (hnf : opts.force = Option.none)
    (hmiss : (cacheGet cache url (opts.query.getD "") env.now).1 = Option.none)
    (hfetch : env.fetchResult = Except.ok fetched) :
    ((detectSPA fetched.html).isSPA = false →
      render env url opts cache
        = (buildResult url "lite" (detectSPA fetched.html)
             (liteRawPage fetched.html url) opts.query opts.chunkLimit env,
           cacheSet (cacheGet cache url (opts.query.getD "") env.now).2 url
             (opts.query.getD "")
             (buildResult url "lite" (detectSPA fetched.html)
               (liteRawPage fetched.html url) opts.query opts.chunkLimit env)
             (some (opts.cacheTtlMs.getD 600000)) env.now)) ∧
    ((detectSPA fetched.html).isSPA = true → ∀ pd, env.pwResult = Except.ok pd →
      render env url opts cache
        = (buildResult url "playwright" (detectSPA fetched.html) pd opts.query
             opts.chunkLimit env,
           cacheSet (cacheGet cache url (opts.query.getD "") env.now).2 url
             (opts.query.getD "")
             (buildResult url "playwright" (detectSPA fetched.html) pd opts.query
               opts.chunkLimit env)
             (some (opts.cacheTtlMs.getD 300000)) env.now)) ∧
    ((detectSPA fetched.html).isSPA = true → ∀ err, env.pwResult = Except.error err →
      render env url opts cache
        = (buildResult url "lite-fallback" (detectSPA fetched.html)
             (liteRawPage fetched.html url) opts.query opts.chunkLimit env,
           (cacheGet cache url (opts.query.getD "") env.now).2)) := by
  refine ⟨?_, ?_, ?_⟩
  · intro hdet
    simp only [render, hnc, hnf, optTruthy, Bool.not_false, Bool.true_and, beq_self_eq_true,
      if_true, hmiss, hfetch, hdet, Bool.not_false, Bool.or_true, renderLite_rawHtml,
      buildResult_backend]
    simp [buildResult_backend]
  · intro hdet pd hpw
    simp only [render, hnc, hnf, optTruthy, hmiss, hfetch, hdet, hpw]
    simp [hmiss, buildResult_backend]
  · intro hdet err hpw
    simp only [render, hnc, hnf, optTruthy, hmiss, hfetch, hdet, hpw]
    simp [hmiss, buildResult_backend, renderLite_rawHtml]

/-- Claim C1, witness: the amended theorem's lite case applied to a
concrete static page — the result is built and stored with the
10-minute default TTL. -/
theorem C1_witness :
    render
      ⟨Except.ok ⟨"<p>hello world text for the page</p>", 200, some "text/html", ""⟩,
       Except.error "unused", 777⟩
      "https://static.example/" {} {}
      = (buildResult "https://static.example/" "lite"
           (detectSPA "<p>hello world text for the page</p>")
           (liteRawPage "<p>hello world text for the page</p>" "https://static.example/")
           Option.none 8
           ⟨Except.ok ⟨"<p>hello world text for the page</p>", 200, some "text/html", ""⟩,
            Except.error "unused", 777⟩,
         cacheSet
           (cacheGet {} "https://static.example/" "" 777).2 "https://static.example/" ""
           (buildResult "https://static.example/" "lite"
             (detectSPA "<p>hello world text for the page</p>")
             (liteRawPage "<p>hello world text for the page</p>" "https://static.example/")
             Option.none 8
             ⟨Except.ok ⟨"<p>hello world text for the page</p>", 200, some "text/html", ""⟩,
              Except.error "unused", 777⟩)
           (some 600000) 777) :=
  (C1_amended
    ⟨Except.ok ⟨"<p>hello world text for the page</p>", 200, some "text/html", ""⟩,
     Except.error "unused", 777⟩
    "https://static.example/" {} {}
    ⟨"<p>hello world text for the page</p>", 200, some "text/html", ""⟩
    rfl rfl (by decide) rfl).1 (by decide)

end AgentWeb
